import Mathlib

/-!
# Verification of the chiprs CHIP-8 implementation

Shallow embedding of the chiprs sources (`src/chip8/src/instructions.rs`,
`emulator.rs`, `assembly.rs`, `assembly/parser.rs`, `machine.rs`) in Lean 4,
together with theorems settling the frozen specification claims.

Machine integers are modelled as `Nat` with explicit masking/reduction at
the points where the Rust code truncates (casts, `&`, wrapping arithmetic).
Rust array indexing that can go out of bounds (a panic) is modelled with
`Option`: `none` is a panic.  Fallible Rust functions returning
`Result<T, E>` are modelled with `Except E T`.
-/

namespace Chiprs

/-! ## instructions.rs — 4-bit and 12-bit value types -/

/-- `u4` from `instructions.rs`: a 4 bit value wrapping a byte. -/
structure u4 where
  value : Nat
deriving DecidableEq, Repr

namespace u4

/-- `u4::decompose`: creates two u4 from a byte, returned as [big, little]. -/
def decompose (v : Nat) : u4 × u4 :=
  (⟨(v &&& 0xF0) >>> 4⟩, ⟨v &&& 0x0F⟩)

/-- `u4::big`: create a u4 from the big bits. -/
def big (v : Nat) : u4 := ⟨(v &&& 0xF0) >>> 4⟩

/-- `u4::little`: create a u4 from the little bits. -/
def little (v : Nat) : u4 := ⟨v &&& 0x0F⟩

/-- `impl From<u8> for u4` delegates to `u4::little`. -/
def fromU8 (v : Nat) : u4 := little v

end u4

/-- `u12` from `instructions.rs`: a 12 bit value wrapping a u16. -/
structure u12 where
  value : Nat
deriving DecidableEq, Repr

namespace u12

/-- `u12::decompose`: a u4 of the upper bits and a u12 of the lower. -/
def decompose (input : Nat) : u4 × u12 :=
  (u4.little ((input &&& 0xF000) >>> 12), ⟨input &&& 0x0FFF⟩)

/-- `u12::from_u16`. -/
def fromU16 (input : Nat) : u12 := (decompose input).2

/-- `u12::from_bytes`: extracts the lower bits of the two bytes. -/
def fromBytes (upper lower : Nat) : u12 :=
  ⟨((upper &&& 0xF) <<< 8) ||| lower⟩

end u12

/-! ## instructions.rs — the Instruction enum -/

/-- The `Instruction` enum of `instructions.rs`, with the same variants in
the same order.  Byte operands (`u8` in Rust) are `Nat`. -/
inductive Instruction where
  | Exit
  | Debug (x : u4)
  | Breakpoint
  | Clear
  | Return
  | Jump (nnn : u12)
  | Call (nnn : u12)
  | SkipEqual (x : u4) (kk : Nat)
  | SkipNotEqual (x : u4) (kk : Nat)
  | SkipRegistersEqual (x y : u4)
  | SetRegisterByte (x : u4) (kk : Nat)
  | Add (x : u4) (kk : Nat)
  | SetRegisterRegister (x y : u4)
  | Or (x y : u4)
  | And (x y : u4)
  | Xor (x y : u4)
  | AddChecked (x y : u4)
  | SubChecked (x y : u4)
  | ShiftRight (x y : u4)
  | SubNChecked (x y : u4)
  | ShiftLeft (x y : u4)
  | SkipRegistersNotEqual (x y : u4)
  | SetMemRegister (nnn : u12)
  | JumpOffset (nnn : u12)
  | Randomize (x : u4) (kk : Nat)
  | Draw (x y n : u4)
  | SkipKeyPressed (x : u4)
  | SkipKeyNotPressed (x : u4)
  | WaitForKey (x : u4)
  | SetRegisterDelayTimer (x : u4)
  | SetDelayTimer (x : u4)
  | SetSoundTimer (x : u4)
  | AddMemReg (x : u4)
  | SetMemRegisterDefaultSprit (x : u4)
  | SetBcd (x : u4)
  | MemWrite (x : u4)
  | MemRead (x : u4)
deriving DecidableEq, Repr

namespace Instruction

/-- `Instruction::from_opcode_u8`, arm for arm in source order.  The Rust
match scrutinee is the tuple `(upper & 0xF0, upper & 0x0F, lower & 0xF0,
lower & 0x0F)`; each of its arms, tried in order, is rendered here as one
guard of an if-chain (a literal in the Rust pattern becomes an equation on
the corresponding tuple component, `_` imposes nothing, and a binder such
as `regx`/`regy`/`n` stands for that component on the right-hand side).
This ordered guard chain is semantically identical to the Rust match. -/
def fromOpcodeU8 (upper lower : Nat) : Option Instruction :=
  if upper &&& 0xF0 = 0x00 ∧ upper &&& 0x0F = 0x00 ∧ lower &&& 0xF0 = 0xe0
      ∧ lower &&& 0x0F = 0x00 then some .Clear
  else if upper &&& 0xF0 = 0x00 ∧ upper &&& 0x0F = 0x00 ∧ lower &&& 0xF0 = 0xe0
      ∧ lower &&& 0x0F = 0x0e then some .Return
  else if upper &&& 0xF0 = 0x10 then some (.Jump (u12.fromBytes upper lower))
  else if upper &&& 0xF0 = 0x20 then some (.Call (u12.fromBytes upper lower))
  else if upper &&& 0xF0 = 0x30 then some (.SkipEqual (u4.little upper) lower)
  else if upper &&& 0xF0 = 0x40 then some (.SkipNotEqual (u4.little upper) lower)
  else if upper &&& 0xF0 = 0x50 ∧ lower &&& 0x0F = 0x00 then
    some (.SkipRegistersEqual (u4.little upper) (u4.big lower))
  else if upper &&& 0xF0 = 0x60 then some (.SetRegisterByte (u4.little upper) lower)
  else if upper &&& 0xF0 = 0x70 then some (.Add (u4.little upper) lower)
  else if upper &&& 0xF0 = 0x80 ∧ lower &&& 0x0F = 0x01 then
    some (.Or (u4.fromU8 (upper &&& 0x0F)) (u4.fromU8 ((lower &&& 0xF0) >>> 4)))
  else if upper &&& 0xF0 = 0x80 ∧ lower &&& 0x0F = 0x02 then
    some (.And (u4.fromU8 (upper &&& 0x0F)) (u4.fromU8 ((lower &&& 0xF0) >>> 4)))
  else if upper &&& 0xF0 = 0x80 ∧ lower &&& 0x0F = 0x03 then
    some (.Xor (u4.fromU8 (upper &&& 0x0F)) (u4.fromU8 ((lower &&& 0xF0) >>> 4)))
  else if upper &&& 0xF0 = 0x80 ∧ lower &&& 0x0F = 0x04 then
    some (.AddChecked (u4.fromU8 (upper &&& 0x0F)) (u4.fromU8 ((lower &&& 0xF0) >>> 4)))
  else if upper &&& 0xF0 = 0x80 ∧ lower &&& 0x0F = 0x05 then
    some (.SubChecked (u4.fromU8 (upper &&& 0x0F)) (u4.fromU8 ((lower &&& 0xF0) >>> 4)))
  else if upper &&& 0xF0 = 0x80 ∧ lower &&& 0x0F = 0x06 then
    some (.ShiftRight (u4.fromU8 (upper &&& 0x0F)) (u4.fromU8 ((lower &&& 0xF0) >>> 4)))
  else if upper &&& 0xF0 = 0x80 ∧ lower &&& 0x0F = 0x07 then
    some (.SubNChecked (u4.fromU8 (upper &&& 0x0F)) (u4.fromU8 ((lower &&& 0xF0) >>> 4)))
  else if upper &&& 0xF0 = 0x80 ∧ lower &&& 0x0F = 0x0E then
    some (.ShiftLeft (u4.fromU8 (upper &&& 0x0F)) (u4.fromU8 ((lower &&& 0xF0) >>> 4)))
  else if upper &&& 0xF0 = 0x90 ∧ lower &&& 0x0F = 0x00 then
    some (.SkipRegistersNotEqual (u4.fromU8 (upper &&& 0x0F)) (u4.fromU8 ((lower &&& 0xF0) >>> 4)))
  else if upper &&& 0xF0 = 0xA0 then some (.SetMemRegister (u12.fromBytes upper lower))
  else if upper &&& 0xF0 = 0xB0 then some (.JumpOffset (u12.fromBytes upper lower))
  else if upper &&& 0xF0 = 0xC0 then some (.Randomize (u4.fromU8 (upper &&& 0x0F)) lower)
  else if upper &&& 0xF0 = 0xD0 then
    some (.Draw (u4.fromU8 (upper &&& 0x0F)) (u4.fromU8 ((lower &&& 0xF0) >>> 4))
      (u4.fromU8 (lower &&& 0x0F)))
  else if upper &&& 0xF0 = 0xE0 ∧ lower &&& 0xF0 = 0x90 ∧ lower &&& 0x0F = 0x0E then
    some (.SkipKeyPressed (u4.fromU8 (upper &&& 0x0F)))
  else if upper &&& 0xF0 = 0xE0 ∧ lower &&& 0xF0 = 0xA0 ∧ lower &&& 0x0F = 0x01 then
    some (.SkipKeyNotPressed (u4.fromU8 (upper &&& 0x0F)))
  else if upper &&& 0xF0 = 0xF0 ∧ lower &&& 0xF0 = 0x00 ∧ lower &&& 0x0F = 0x0A then
    some (.WaitForKey (u4.fromU8 (upper &&& 0x0F)))
  else if upper &&& 0xF0 = 0x80 ∧ lower &&& 0x0F = 0x00 then
    some (.SetRegisterRegister (u4.fromU8 (upper &&& 0x0F)) (u4.fromU8 ((lower &&& 0xF0) >>> 4)))
  else if upper &&& 0xF0 = 0xF0 ∧ lower &&& 0xF0 = 0x00 ∧ lower &&& 0x0F = 0x07 then
    some (.SetRegisterDelayTimer (u4.fromU8 (upper &&& 0x0F)))
  else if upper &&& 0xF0 = 0xF0 ∧ lower &&& 0xF0 = 0x10 ∧ lower &&& 0x0F = 0x05 then
    some (.SetDelayTimer (u4.fromU8 (upper &&& 0x0F)))
  else if upper &&& 0xF0 = 0xF0 ∧ lower &&& 0xF0 = 0x10 ∧ lower &&& 0x0F = 0x08 then
    some (.SetSoundTimer (u4.fromU8 (upper &&& 0x0F)))
  else if upper &&& 0xF0 = 0xF0 ∧ lower &&& 0xF0 = 0x10 ∧ lower &&& 0x0F = 0x0E then
    some (.AddMemReg (u4.fromU8 (upper &&& 0x0F)))
  else if upper &&& 0xF0 = 0xF0 ∧ lower &&& 0xF0 = 0x20 ∧ lower &&& 0x0F = 0x09 then
    some (.SetMemRegisterDefaultSprit (u4.fromU8 (upper &&& 0x0F)))
  else if upper &&& 0xF0 = 0xF0 ∧ lower &&& 0xF0 = 0x30 ∧ lower &&& 0x0F = 0x03 then
    some (.SetBcd (u4.fromU8 (upper &&& 0x0F)))
  else if upper &&& 0xF0 = 0xF0 ∧ lower &&& 0xF0 = 0x50 ∧ lower &&& 0x0F = 0x05 then
    some (.MemWrite (u4.fromU8 (upper &&& 0x0F)))
  else if upper &&& 0xF0 = 0xF0 ∧ lower &&& 0xF0 = 0x60 ∧ lower &&& 0x0F = 0x05 then
    some (.MemRead (u4.fromU8 (upper &&& 0x0F)))
  else if upper &&& 0xF0 = 0xF0 ∧ upper &&& 0x0F = 0x01 ∧ lower &&& 0xF0 = 0xE0
      ∧ lower &&& 0x0F = 0x0E then some .Exit
  else if upper &&& 0xF0 = 0xF0 ∧ lower &&& 0xF0 = 0xE0 ∧ lower &&& 0x0F = 0x0F then
    some (.Debug (u4.fromU8 (upper &&& 0x0F)))
  else if upper &&& 0xF0 = 0xF0 ∧ lower &&& 0xF0 = 0xF0 ∧ lower &&& 0x0F = 0x0F then
    some .Breakpoint
  else none

/-- `Instruction::from_opcode_u16`: split the word into big-endian bytes. -/
def fromOpcodeU16 (opcode : Nat) : Option Instruction :=
  fromOpcodeU8 ((opcode >>> 8) &&& 0xFF) (opcode &&& 0xFF)

/-- `Instruction::opcode`, arm for arm in source order. -/
def opcode : Instruction → Nat
  | .Exit => 0xf1ee
  | .Debug v => ((0xF0 ||| v.value) <<< 8) ||| 0xEF
  | .Breakpoint => 0xF0FF
  | .Clear => 0x00e0
  | .Return => 0x00ee
  | .Jump addr => 0x1000 ||| addr.value
  | .Call addr => 0x2000 ||| addr.value
  | .SkipEqual reg v => ((0x30 ||| reg.value) <<< 8) ||| v
  | .SkipNotEqual reg v => ((0x40 ||| reg.value) <<< 8) ||| v
  | .SkipRegistersEqual rx ry => ((0x50 ||| rx.value) <<< 8) ||| ((ry.value <<< 4) ||| 0x00)
  | .SetRegisterByte reg v => ((0x60 ||| reg.value) <<< 8) ||| v
  | .Add reg v => ((0x70 ||| reg.value) <<< 8) ||| v
  | .Or rx ry => ((0x80 ||| rx.value) <<< 8) ||| ((ry.value <<< 4) ||| 0x01)
  | .And rx ry => ((0x80 ||| rx.value) <<< 8) ||| ((ry.value <<< 4) ||| 0x02)
  | .Xor rx ry => ((0x80 ||| rx.value) <<< 8) ||| ((ry.value <<< 4) ||| 0x03)
  | .AddChecked rx ry => ((0x80 ||| rx.value) <<< 8) ||| ((ry.value <<< 4) ||| 0x04)
  | .SubChecked rx ry => ((0x80 ||| rx.value) <<< 8) ||| ((ry.value <<< 4) ||| 0x05)
  | .ShiftRight rx ry => ((0x80 ||| rx.value) <<< 8) ||| ((ry.value <<< 4) ||| 0x06)
  | .SubNChecked rx ry => ((0x80 ||| rx.value) <<< 8) ||| ((ry.value <<< 4) ||| 0x07)
  | .ShiftLeft rx ry => ((0x80 ||| rx.value) <<< 8) ||| ((ry.value <<< 4) ||| 0x0E)
  | .SkipRegistersNotEqual rx ry => ((0x90 ||| rx.value) <<< 8) ||| ((ry.value <<< 4) ||| 0x00)
  | .SetMemRegister addr => 0xA000 ||| addr.value
  | .JumpOffset addr => 0xB000 ||| addr.value
  | .Randomize rx v => ((0xC0 ||| rx.value) <<< 8) ||| v
  | .Draw rx ry n => ((0xd0 ||| rx.value) <<< 8) ||| ((ry.value <<< 4) ||| n.value)
  | .SkipKeyPressed rx => ((0xE0 ||| rx.value) <<< 8) ||| 0x9E
  | .SkipKeyNotPressed rx => ((0xE0 ||| rx.value) <<< 8) ||| 0xA1
  | .WaitForKey rx => ((0xF0 ||| rx.value) <<< 8) ||| 0x0A
  | .SetRegisterRegister rx ry => ((0x80 ||| rx.value) <<< 8) ||| (ry.value <<< 4)
  | .SetMemRegisterDefaultSprit rx => ((0xF0 ||| rx.value) <<< 8) ||| 0x29
  | .SetRegisterDelayTimer rx => ((0xF0 ||| rx.value) <<< 8) ||| 0x07
  | .SetDelayTimer rx => ((0xF0 ||| rx.value) <<< 8) ||| 0x15
  | .SetSoundTimer rx => ((0xF0 ||| rx.value) <<< 8) ||| 0x18
  | .AddMemReg rx => ((0xF0 ||| rx.value) <<< 8) ||| 0x1E
  | .SetBcd rx => ((0xF0 ||| rx.value) <<< 8) ||| 0x33
  | .MemWrite rx => ((0xF0 ||| rx.value) <<< 8) ||| 0x55
  | .MemRead rx => ((0xF0 ||| rx.value) <<< 8) ||| 0x65

end Instruction

/-! ## Arithmetic helper lemmas for the codec proofs -/

/-- `(b <<< n) ||| s = b * 2 ^ n + s` when `s < 2 ^ n`: appending disjoint
low bits with `|||` is addition. -/
theorem shiftLeft_lor_eq_add (b s n : Nat) (hs : s < 2 ^ n) :
    (b <<< n) ||| s = b * 2 ^ n + s := by
  have hdiv : ((b <<< n) ||| s) >>> n = b := by
    apply Nat.eq_of_testBit_eq
    intro j
    rw [Nat.testBit_shiftRight, Nat.testBit_lor, Nat.testBit_shiftLeft]
    have hsb : s.testBit (n + j) = false :=
      Nat.testBit_lt_two_pow (lt_of_lt_of_le hs (Nat.pow_le_pow_right (by omega) (by omega)))
    simp [hsb, Nat.add_sub_cancel_left, Nat.le_add_right]
  have hmod : ((b <<< n) ||| s) &&& (2 ^ n - 1) = s := by
    rw [Nat.and_distrib_right, Nat.and_pow_two_sub_one_eq_mod, Nat.and_pow_two_sub_one_eq_mod,
      Nat.shiftLeft_eq, Nat.mul_mod_left, Nat.mod_eq_of_lt hs]
    simp
  rw [Nat.shiftRight_eq_div_pow] at hdiv
  rw [Nat.and_pow_two_sub_one_eq_mod] at hmod
  calc (b <<< n) ||| s
      = 2 ^ n * (((b <<< n) ||| s) / 2 ^ n) + ((b <<< n) ||| s) % 2 ^ n :=
        (Nat.div_add_mod _ _).symm
    _ = b * 2 ^ n + s := by rw [hdiv, hmod, Nat.mul_comm]

set_option maxRecDepth 4000 in
/-- High/low nibble masks of a byte in `div`/`mod` form. -/
theorem byte_nibbles (u : Nat) (hu : u < 256) :
    u &&& 0xF0 = u / 16 * 16 ∧ u &&& 0x0F = u % 16 := by
  revert hu
  have h : ∀ v < 256, v &&& 0xF0 = v / 16 * 16 ∧ v &&& 0x0F = v % 16 := by decide
  exact h u

set_option maxRecDepth 4000 in
/-- `|||` of a multiple of 16 with a nibble is addition. -/
theorem lor_nibble_eq_add (k t : Nat) (hk : k < 16) (ht : t < 16) :
    (k * 16) ||| t = k * 16 + t := by
  revert hk ht
  have h : ∀ k < 16, ∀ t < 16, (k * 16) ||| t = k * 16 + t := by decide
  intro hk ht
  exact h k hk t ht

/-- Masking with `0xF` is `% 16`. -/
theorem and_fifteen (v : Nat) : v &&& 0xF = v % 16 := by
  have h : (0xF : Nat) = 2 ^ 4 - 1 := by norm_num
  rw [h, Nat.and_pow_two_sub_one_eq_mod]

/-- Masking with `0xFF` is `% 256`. -/
theorem and_255 (v : Nat) : v &&& 0xFF = v % 256 := by
  have h : (0xFF : Nat) = 2 ^ 8 - 1 := by norm_num
  rw [h, Nat.and_pow_two_sub_one_eq_mod]

/-- Masking with `0xFFF` is `% 4096`. -/
theorem and_4095 (v : Nat) : v &&& 0xFFF = v % 4096 := by
  have h : (0xFFF : Nat) = 2 ^ 12 - 1 := by norm_num
  rw [h, Nat.and_pow_two_sub_one_eq_mod]

/-- `>>> 4` is `/ 16`. -/
theorem shiftRight_four (v : Nat) : v >>> 4 = v / 16 := by
  rw [Nat.shiftRight_eq_div_pow]

/-- `>>> 8` is `/ 256`. -/
theorem shiftRight_eight (v : Nat) : v >>> 8 = v / 256 := by
  rw [Nat.shiftRight_eq_div_pow]

/-- `<<< 4` is `* 16`. -/
theorem shiftLeft_four (v : Nat) : v <<< 4 = v * 16 := by
  rw [Nat.shiftLeft_eq]

/-- `<<< 8` is `* 256`. -/
theorem shiftLeft_eight (v : Nat) : v <<< 8 = v * 256 := by
  rw [Nat.shiftLeft_eq]

/-- `c ||| t = c + t` when the low `n` bits of `c` are clear and `t` fits in
them (`m = 2 ^ n`). -/
theorem const_lor_eq_add (c t n m : Nat) (hm : 2 ^ n = m) (ht : t < m) (hc : c % m = 0) :
    c ||| t = c + t := by
  subst hm
  have hdvd : 2 ^ n ∣ c := Nat.dvd_of_mod_eq_zero hc
  have hc2 : c / 2 ^ n * 2 ^ n = c := Nat.div_mul_cancel hdvd
  calc c ||| t = ((c / 2 ^ n) <<< n) ||| t := by rw [Nat.shiftLeft_eq, hc2]
    _ = (c / 2 ^ n) * 2 ^ n + t := shiftLeft_lor_eq_add _ _ _ ht
    _ = c + t := by rw [hc2]

/-- `k * 16 ||| t = k * 16 + t` for a nibble `t`. -/
theorem mul_sixteen_lor (k t : Nat) (ht : t < 16) : (k * 16) ||| t = k * 16 + t := by
  have h := shiftLeft_lor_eq_add k t 4 (by norm_num [ht])
  rw [Nat.shiftLeft_eq] at h
  norm_num at h
  exact h

/-- Splitting a 16-bit word built from two bytes recovers the bytes. -/
theorem fromOpcodeU16_split (hi lo : Nat) (hhi : hi < 256) (hlo : lo < 256) :
    Instruction.fromOpcodeU16 (hi * 256 + lo) = Instruction.fromOpcodeU8 hi lo := by
  unfold Instruction.fromOpcodeU16
  rw [shiftRight_eight, and_255, and_255]
  congr 1 <;> omega

/-- Well-formedness of an instruction: every operand has its stated width
(4-bit register indices and nibbles, 8-bit immediates, 12-bit addresses).
In Rust this holds by construction since the `u4`/`u12` fields are private
and every constructor masks. -/
def wfInstr : Instruction → Prop
  | .Exit | .Breakpoint | .Clear | .Return => True
  | .Debug x => x.value < 16
  | .Jump a | .Call a | .SetMemRegister a | .JumpOffset a => a.value < 4096
  | .SkipEqual x kk | .SkipNotEqual x kk | .SetRegisterByte x kk
  | .Add x kk | .Randomize x kk => x.value < 16 ∧ kk < 256
  | .SkipRegistersEqual x y | .SetRegisterRegister x y | .Or x y | .And x y
  | .Xor x y | .AddChecked x y | .SubChecked x y | .ShiftRight x y
  | .SubNChecked x y | .ShiftLeft x y | .SkipRegistersNotEqual x y =>
      x.value < 16 ∧ y.value < 16
  | .Draw x y n => x.value < 16 ∧ y.value < 16 ∧ n.value < 16
  | .SkipKeyPressed x | .SkipKeyNotPressed x | .WaitForKey x
  | .SetRegisterDelayTimer x | .SetDelayTimer x | .SetSoundTimer x
  | .AddMemReg x | .SetMemRegisterDefaultSprit x | .SetBcd x
  | .MemWrite x | .MemRead x => x.value < 16

set_option maxHeartbeats 1600000 in
/-- Characterization of decoding: any accepted byte pair yields a
well-formed instruction whose re-encoding is the original word, except
for `Breakpoint`, which always re-encodes to `0xF0FF`. -/
theorem decode_char (upper lower : Nat) (i : Instruction)
    (hu : upper < 256) (hl : lower < 256)
    (h : Instruction.fromOpcodeU8 upper lower = some i) :
    wfInstr i ∧ i.opcode = (if i = .Breakpoint then 0xF0FF else upper * 256 + lower) := by
  obtain ⟨hu1, hu2⟩ := byte_nibbles upper hu
  obtain ⟨hl1, hl2⟩ := byte_nibbles lower hl
  unfold Instruction.fromOpcodeU8 at h
  rw [hu1, hu2, hl1, hl2] at h
  by_cases c1 : upper / 16 * 16 = 0x00 ∧ upper % 16 = 0x00 ∧ lower / 16 * 16 = 0xe0 ∧ lower % 16 = 0x00
  · -- Clear
    rw [if_pos c1] at h
    injection h with h; subst h
    refine ⟨?_, ?_⟩
    · trivial
    · rw [if_neg (by simp)]
      simp only [Instruction.opcode]
      omega
  rw [if_neg c1] at h
  by_cases c2 : upper / 16 * 16 = 0x00 ∧ upper % 16 = 0x00 ∧ lower / 16 * 16 = 0xe0 ∧ lower % 16 = 0x0e
  · -- Return
    rw [if_pos c2] at h
    injection h with h; subst h
    refine ⟨?_, ?_⟩
    · trivial
    · rw [if_neg (by simp)]
      simp only [Instruction.opcode]
      omega
  rw [if_neg c2] at h
  by_cases c3 : upper / 16 * 16 = 0x10
  · -- Jump
    rw [if_pos c3] at h
    injection h with h; subst h
    refine ⟨?_, ?_⟩
    · simp only [wfInstr, u12.fromBytes, and_fifteen]
      rw [shiftLeft_lor_eq_add _ _ 8 (by omega)]
      omega
    · rw [if_neg (by simp)]
      simp only [Instruction.opcode, u12.fromBytes, and_fifteen]
      rw [shiftLeft_lor_eq_add _ _ 8 (by omega)]
      rw [const_lor_eq_add 0x1000 _ 12 4096 (by norm_num) (by omega) (by norm_num)]
      omega
  rw [if_neg c3] at h
  by_cases c4 : upper / 16 * 16 = 0x20
  · -- Call
    rw [if_pos c4] at h
    injection h with h; subst h
    refine ⟨?_, ?_⟩
    · simp only [wfInstr, u12.fromBytes, and_fifteen]
      rw [shiftLeft_lor_eq_add _ _ 8 (by omega)]
      omega
    · rw [if_neg (by simp)]
      simp only [Instruction.opcode, u12.fromBytes, and_fifteen]
      rw [shiftLeft_lor_eq_add _ _ 8 (by omega)]
      rw [const_lor_eq_add 0x2000 _ 12 4096 (by norm_num) (by omega) (by norm_num)]
      omega
  rw [if_neg c4] at h
  by_cases c5 : upper / 16 * 16 = 0x30
  · -- SkipEqual
    rw [if_pos c5] at h
    injection h with h; subst h
    refine ⟨?_, ?_⟩
    · simp only [wfInstr, u4.fromU8, u4.little, u4.big, and_fifteen, shiftRight_four]
      omega
    · rw [if_neg (by simp)]
      simp only [Instruction.opcode, u4.fromU8, u4.little, and_fifteen]
      rw [const_lor_eq_add 0x30 _ 4 16 (by norm_num) (by omega) (by norm_num)]
      rw [shiftLeft_lor_eq_add _ _ 8 (by omega)]
      omega
  rw [if_neg c5] at h
  by_cases c6 : upper / 16 * 16 = 0x40
  · -- SkipNotEqual
    rw [if_pos c6] at h
    injection h with h; subst h
    refine ⟨?_, ?_⟩
    · simp only [wfInstr, u4.fromU8, u4.little, u4.big, and_fifteen, shiftRight_four]
      omega
    · rw [if_neg (by simp)]
      simp only [Instruction.opcode, u4.fromU8, u4.little, and_fifteen]
      rw [const_lor_eq_add 0x40 _ 4 16 (by norm_num) (by omega) (by norm_num)]
      rw [shiftLeft_lor_eq_add _ _ 8 (by omega)]
      omega
  rw [if_neg c6] at h
  by_cases c7 : upper / 16 * 16 = 0x50 ∧ lower % 16 = 0x00
  · -- SkipRegistersEqual
    rw [if_pos c7] at h
    injection h with h; subst h
    refine ⟨?_, ?_⟩
    · simp only [wfInstr, u4.fromU8, u4.little, u4.big, and_fifteen, shiftRight_four]
      omega
    · rw [if_neg (by simp)]
      simp only [Instruction.opcode, u4.fromU8, u4.little, u4.big, and_fifteen,
        shiftRight_four, shiftLeft_four]
      rw [mul_sixteen_lor _ _ (by omega)]
      rw [const_lor_eq_add 0x50 _ 4 16 (by norm_num) (by omega) (by norm_num)]
      rw [shiftLeft_lor_eq_add _ _ 8 (by omega)]
      omega
  rw [if_neg c7] at h
  by_cases c8 : upper / 16 * 16 = 0x60
  · -- SetRegisterByte
    rw [if_pos c8] at h
    injection h with h; subst h
    refine ⟨?_, ?_⟩
    · simp only [wfInstr, u4.fromU8, u4.little, u4.big, and_fifteen, shiftRight_four]
      omega
    · rw [if_neg (by simp)]
      simp only [Instruction.opcode, u4.fromU8, u4.little, and_fifteen]
      rw [const_lor_eq_add 0x60 _ 4 16 (by norm_num) (by omega) (by norm_num)]
      rw [shiftLeft_lor_eq_add _ _ 8 (by omega)]
      omega
  rw [if_neg c8] at h
  by_cases c9 : upper / 16 * 16 = 0x70
  · -- Add
    rw [if_pos c9] at h
    injection h with h; subst h
    refine ⟨?_, ?_⟩
    · simp only [wfInstr, u4.fromU8, u4.little, u4.big, and_fifteen, shiftRight_four]
      omega
    · rw [if_neg (by simp)]
      simp only [Instruction.opcode, u4.fromU8, u4.little, and_fifteen]
      rw [const_lor_eq_add 0x70 _ 4 16 (by norm_num) (by omega) (by norm_num)]
      rw [shiftLeft_lor_eq_add _ _ 8 (by omega)]
      omega
  rw [if_neg c9] at h
  by_cases c10 : upper / 16 * 16 = 0x80 ∧ lower % 16 = 0x01
  · -- Or
    rw [if_pos c10] at h
    injection h with h; subst h
    refine ⟨?_, ?_⟩
    · simp only [wfInstr, u4.fromU8, u4.little, u4.big, and_fifteen, shiftRight_four]
      omega
    · rw [if_neg (by simp)]
      simp only [Instruction.opcode, u4.fromU8, u4.little, u4.big, and_fifteen,
        shiftRight_four, shiftLeft_four]
      rw [mul_sixteen_lor _ _ (by omega)]
      rw [const_lor_eq_add 0x80 _ 4 16 (by norm_num) (by omega) (by norm_num)]
      rw [shiftLeft_lor_eq_add _ _ 8 (by omega)]
      omega
  rw [if_neg c10] at h
  by_cases c11 : upper / 16 * 16 = 0x80 ∧ lower % 16 = 0x02
  · -- And
    rw [if_pos c11] at h
    injection h with h; subst h
    refine ⟨?_, ?_⟩
    · simp only [wfInstr, u4.fromU8, u4.little, u4.big, and_fifteen, shiftRight_four]
      omega
    · rw [if_neg (by simp)]
      simp only [Instruction.opcode, u4.fromU8, u4.little, u4.big, and_fifteen,
        shiftRight_four, shiftLeft_four]
      rw [mul_sixteen_lor _ _ (by omega)]
      rw [const_lor_eq_add 0x80 _ 4 16 (by norm_num) (by omega) (by norm_num)]
      rw [shiftLeft_lor_eq_add _ _ 8 (by omega)]
      omega
  rw [if_neg c11] at h
  by_cases c12 : upper / 16 * 16 = 0x80 ∧ lower % 16 = 0x03
  · -- Xor
    rw [if_pos c12] at h
    injection h with h; subst h
    refine ⟨?_, ?_⟩
    · simp only [wfInstr, u4.fromU8, u4.little, u4.big, and_fifteen, shiftRight_four]
      omega
    · rw [if_neg (by simp)]
      simp only [Instruction.opcode, u4.fromU8, u4.little, u4.big, and_fifteen,
        shiftRight_four, shiftLeft_four]
      rw [mul_sixteen_lor _ _ (by omega)]
      rw [const_lor_eq_add 0x80 _ 4 16 (by norm_num) (by omega) (by norm_num)]
      rw [shiftLeft_lor_eq_add _ _ 8 (by omega)]
      omega
  rw [if_neg c12] at h
  by_cases c13 : upper / 16 * 16 = 0x80 ∧ lower % 16 = 0x04
  · -- AddChecked
    rw [if_pos c13] at h
    injection h with h; subst h
    refine ⟨?_, ?_⟩
    · simp only [wfInstr, u4.fromU8, u4.little, u4.big, and_fifteen, shiftRight_four]
      omega
    · rw [if_neg (by simp)]
      simp only [Instruction.opcode, u4.fromU8, u4.little, u4.big, and_fifteen,
        shiftRight_four, shiftLeft_four]
      rw [mul_sixteen_lor _ _ (by omega)]
      rw [const_lor_eq_add 0x80 _ 4 16 (by norm_num) (by omega) (by norm_num)]
      rw [shiftLeft_lor_eq_add _ _ 8 (by omega)]
      omega
  rw [if_neg c13] at h
  by_cases c14 : upper / 16 * 16 = 0x80 ∧ lower % 16 = 0x05
  · -- SubChecked
    rw [if_pos c14] at h
    injection h with h; subst h
    refine ⟨?_, ?_⟩
    · simp only [wfInstr, u4.fromU8, u4.little, u4.big, and_fifteen, shiftRight_four]
      omega
    · rw [if_neg (by simp)]
      simp only [Instruction.opcode, u4.fromU8, u4.little, u4.big, and_fifteen,
        shiftRight_four, shiftLeft_four]
      rw [mul_sixteen_lor _ _ (by omega)]
      rw [const_lor_eq_add 0x80 _ 4 16 (by norm_num) (by omega) (by norm_num)]
      rw [shiftLeft_lor_eq_add _ _ 8 (by omega)]
      omega
  rw [if_neg c14] at h
  by_cases c15 : upper / 16 * 16 = 0x80 ∧ lower % 16 = 0x06
  · -- ShiftRight
    rw [if_pos c15] at h
    injection h with h; subst h
    refine ⟨?_, ?_⟩
    · simp only [wfInstr, u4.fromU8, u4.little, u4.big, and_fifteen, shiftRight_four]
      omega
    · rw [if_neg (by simp)]
      simp only [Instruction.opcode, u4.fromU8, u4.little, u4.big, and_fifteen,
        shiftRight_four, shiftLeft_four]
      rw [mul_sixteen_lor _ _ (by omega)]
      rw [const_lor_eq_add 0x80 _ 4 16 (by norm_num) (by omega) (by norm_num)]
      rw [shiftLeft_lor_eq_add _ _ 8 (by omega)]
      omega
  rw [if_neg c15] at h
  by_cases c16 : upper / 16 * 16 = 0x80 ∧ lower % 16 = 0x07
  · -- SubNChecked
    rw [if_pos c16] at h
    injection h with h; subst h
    refine ⟨?_, ?_⟩
    · simp only [wfInstr, u4.fromU8, u4.little, u4.big, and_fifteen, shiftRight_four]
      omega
    · rw [if_neg (by simp)]
      simp only [Instruction.opcode, u4.fromU8, u4.little, u4.big, and_fifteen,
        shiftRight_four, shiftLeft_four]
      rw [mul_sixteen_lor _ _ (by omega)]
      rw [const_lor_eq_add 0x80 _ 4 16 (by norm_num) (by omega) (by norm_num)]
      rw [shiftLeft_lor_eq_add _ _ 8 (by omega)]
      omega
  rw [if_neg c16] at h
  by_cases c17 : upper / 16 * 16 = 0x80 ∧ lower % 16 = 0x0E
  · -- ShiftLeft
    rw [if_pos c17] at h
    injection h with h; subst h
    refine ⟨?_, ?_⟩
    · simp only [wfInstr, u4.fromU8, u4.little, u4.big, and_fifteen, shiftRight_four]
      omega
    · rw [if_neg (by simp)]
      simp only [Instruction.opcode, u4.fromU8, u4.little, u4.big, and_fifteen,
        shiftRight_four, shiftLeft_four]
      rw [mul_sixteen_lor _ _ (by omega)]
      rw [const_lor_eq_add 0x80 _ 4 16 (by norm_num) (by omega) (by norm_num)]
      rw [shiftLeft_lor_eq_add _ _ 8 (by omega)]
      omega
  rw [if_neg c17] at h
  by_cases c18 : upper / 16 * 16 = 0x90 ∧ lower % 16 = 0x00
  · -- SkipRegistersNotEqual
    rw [if_pos c18] at h
    injection h with h; subst h
    refine ⟨?_, ?_⟩
    · simp only [wfInstr, u4.fromU8, u4.little, u4.big, and_fifteen, shiftRight_four]
      omega
    · rw [if_neg (by simp)]
      simp only [Instruction.opcode, u4.fromU8, u4.little, u4.big, and_fifteen,
        shiftRight_four, shiftLeft_four]
      rw [mul_sixteen_lor _ _ (by omega)]
      rw [const_lor_eq_add 0x90 _ 4 16 (by norm_num) (by omega) (by norm_num)]
      rw [shiftLeft_lor_eq_add _ _ 8 (by omega)]
      omega
  rw [if_neg c18] at h
  by_cases c19 : upper / 16 * 16 = 0xA0
  · -- SetMemRegister
    rw [if_pos c19] at h
    injection h with h; subst h
    refine ⟨?_, ?_⟩
    · simp only [wfInstr, u12.fromBytes, and_fifteen]
      rw [shiftLeft_lor_eq_add _ _ 8 (by omega)]
      omega
    · rw [if_neg (by simp)]
      simp only [Instruction.opcode, u12.fromBytes, and_fifteen]
      rw [shiftLeft_lor_eq_add _ _ 8 (by omega)]
      rw [const_lor_eq_add 0xA000 _ 12 4096 (by norm_num) (by omega) (by norm_num)]
      omega
  rw [if_neg c19] at h
  by_cases c20 : upper / 16 * 16 = 0xB0
  · -- JumpOffset
    rw [if_pos c20] at h
    injection h with h; subst h
    refine ⟨?_, ?_⟩
    · simp only [wfInstr, u12.fromBytes, and_fifteen]
      rw [shiftLeft_lor_eq_add _ _ 8 (by omega)]
      omega
    · rw [if_neg (by simp)]
      simp only [Instruction.opcode, u12.fromBytes, and_fifteen]
      rw [shiftLeft_lor_eq_add _ _ 8 (by omega)]
      rw [const_lor_eq_add 0xB000 _ 12 4096 (by norm_num) (by omega) (by norm_num)]
      omega
  rw [if_neg c20] at h
  by_cases c21 : upper / 16 * 16 = 0xC0
  · -- Randomize
    rw [if_pos c21] at h
    injection h with h; subst h
    refine ⟨?_, ?_⟩
    · simp only [wfInstr, u4.fromU8, u4.little, u4.big, and_fifteen, shiftRight_four]
      omega
    · rw [if_neg (by simp)]
      simp only [Instruction.opcode, u4.fromU8, u4.little, and_fifteen]
      rw [const_lor_eq_add 0xC0 _ 4 16 (by norm_num) (by omega) (by norm_num)]
      rw [shiftLeft_lor_eq_add _ _ 8 (by omega)]
      omega
  rw [if_neg c21] at h
  by_cases c22 : upper / 16 * 16 = 0xD0
  · -- Draw
    rw [if_pos c22] at h
    injection h with h; subst h
    refine ⟨?_, ?_⟩
    · simp only [wfInstr, u4.fromU8, u4.little, u4.big, and_fifteen, shiftRight_four]
      omega
    · rw [if_neg (by simp)]
      simp only [Instruction.opcode, u4.fromU8, u4.little, u4.big, and_fifteen,
        shiftRight_four, shiftLeft_four]
      rw [mul_sixteen_lor _ _ (by omega)]
      rw [const_lor_eq_add 0xD0 _ 4 16 (by norm_num) (by omega) (by norm_num)]
      rw [shiftLeft_lor_eq_add _ _ 8 (by omega)]
      omega
  rw [if_neg c22] at h
  by_cases c23 : upper / 16 * 16 = 0xE0 ∧ lower / 16 * 16 = 0x90 ∧ lower % 16 = 0x0E
  · -- SkipKeyPressed
    rw [if_pos c23] at h
    injection h with h; subst h
    refine ⟨?_, ?_⟩
    · simp only [wfInstr, u4.fromU8, u4.little, u4.big, and_fifteen, shiftRight_four]
      omega
    · rw [if_neg (by simp)]
      simp only [Instruction.opcode, u4.fromU8, u4.little, and_fifteen]
      rw [const_lor_eq_add 0xE0 _ 4 16 (by norm_num) (by omega) (by norm_num)]
      rw [shiftLeft_lor_eq_add _ _ 8 (by omega)]
      omega
  rw [if_neg c23] at h
  by_cases c24 : upper / 16 * 16 = 0xE0 ∧ lower / 16 * 16 = 0xA0 ∧ lower % 16 = 0x01
  · -- SkipKeyNotPressed
    rw [if_pos c24] at h
    injection h with h; subst h
    refine ⟨?_, ?_⟩
    · simp only [wfInstr, u4.fromU8, u4.little, u4.big, and_fifteen, shiftRight_four]
      omega
    · rw [if_neg (by simp)]
      simp only [Instruction.opcode, u4.fromU8, u4.little, and_fifteen]
      rw [const_lor_eq_add 0xE0 _ 4 16 (by norm_num) (by omega) (by norm_num)]
      rw [shiftLeft_lor_eq_add _ _ 8 (by omega)]
      omega
  rw [if_neg c24] at h
  by_cases c25 : upper / 16 * 16 = 0xF0 ∧ lower / 16 * 16 = 0x00 ∧ lower % 16 = 0x0A
  · -- WaitForKey
    rw [if_pos c25] at h
    injection h with h; subst h
    refine ⟨?_, ?_⟩
    · simp only [wfInstr, u4.fromU8, u4.little, u4.big, and_fifteen, shiftRight_four]
      omega
    · rw [if_neg (by simp)]
      simp only [Instruction.opcode, u4.fromU8, u4.little, and_fifteen]
      rw [const_lor_eq_add 0xF0 _ 4 16 (by norm_num) (by omega) (by norm_num)]
      rw [shiftLeft_lor_eq_add _ _ 8 (by omega)]
      omega
  rw [if_neg c25] at h
  by_cases c26 : upper / 16 * 16 = 0x80 ∧ lower % 16 = 0x00
  · -- SetRegisterRegister
    rw [if_pos c26] at h
    injection h with h; subst h
    refine ⟨?_, ?_⟩
    · simp only [wfInstr, u4.fromU8, u4.little, u4.big, and_fifteen, shiftRight_four]
      omega
    · rw [if_neg (by simp)]
      simp only [Instruction.opcode, u4.fromU8, u4.little, u4.big, and_fifteen,
        shiftRight_four, shiftLeft_four]
      rw [const_lor_eq_add 0x80 _ 4 16 (by norm_num) (by omega) (by norm_num)]
      rw [shiftLeft_lor_eq_add _ _ 8 (by omega)]
      omega
  rw [if_neg c26] at h
  by_cases c27 : upper / 16 * 16 = 0xF0 ∧ lower / 16 * 16 = 0x00 ∧ lower % 16 = 0x07
  · -- SetRegisterDelayTimer
    rw [if_pos c27] at h
    injection h with h; subst h
    refine ⟨?_, ?_⟩
    · simp only [wfInstr, u4.fromU8, u4.little, u4.big, and_fifteen, shiftRight_four]
      omega
    · rw [if_neg (by simp)]
      simp only [Instruction.opcode, u4.fromU8, u4.little, and_fifteen]
      rw [const_lor_eq_add 0xF0 _ 4 16 (by norm_num) (by omega) (by norm_num)]
      rw [shiftLeft_lor_eq_add _ _ 8 (by omega)]
      omega
  rw [if_neg c27] at h
  by_cases c28 : upper / 16 * 16 = 0xF0 ∧ lower / 16 * 16 = 0x10 ∧ lower % 16 = 0x05
  · -- SetDelayTimer
    rw [if_pos c28] at h
    injection h with h; subst h
    refine ⟨?_, ?_⟩
    · simp only [wfInstr, u4.fromU8, u4.little, u4.big, and_fifteen, shiftRight_four]
      omega
    · rw [if_neg (by simp)]
      simp only [Instruction.opcode, u4.fromU8, u4.little, and_fifteen]
      rw [const_lor_eq_add 0xF0 _ 4 16 (by norm_num) (by omega) (by norm_num)]
      rw [shiftLeft_lor_eq_add _ _ 8 (by omega)]
      omega
  rw [if_neg c28] at h
  by_cases c29 : upper / 16 * 16 = 0xF0 ∧ lower / 16 * 16 = 0x10 ∧ lower % 16 = 0x08
  · -- SetSoundTimer
    rw [if_pos c29] at h
    injection h with h; subst h
    refine ⟨?_, ?_⟩
    · simp only [wfInstr, u4.fromU8, u4.little, u4.big, and_fifteen, shiftRight_four]
      omega
    · rw [if_neg (by simp)]
      simp only [Instruction.opcode, u4.fromU8, u4.little, and_fifteen]
      rw [const_lor_eq_add 0xF0 _ 4 16 (by norm_num) (by omega) (by norm_num)]
      rw [shiftLeft_lor_eq_add _ _ 8 (by omega)]
      omega
  rw [if_neg c29] at h
  by_cases c30 : upper / 16 * 16 = 0xF0 ∧ lower / 16 * 16 = 0x10 ∧ lower % 16 = 0x0E
  · -- AddMemReg
    rw [if_pos c30] at h
    injection h with h; subst h
    refine ⟨?_, ?_⟩
    · simp only [wfInstr, u4.fromU8, u4.little, u4.big, and_fifteen, shiftRight_four]
      omega
    · rw [if_neg (by simp)]
      simp only [Instruction.opcode, u4.fromU8, u4.little, and_fifteen]
      rw [const_lor_eq_add 0xF0 _ 4 16 (by norm_num) (by omega) (by norm_num)]
      rw [shiftLeft_lor_eq_add _ _ 8 (by omega)]
      omega
  rw [if_neg c30] at h
  by_cases c31 : upper / 16 * 16 = 0xF0 ∧ lower / 16 * 16 = 0x20 ∧ lower % 16 = 0x09
  · -- SetMemRegisterDefaultSprit
    rw [if_pos c31] at h
    injection h with h; subst h
    refine ⟨?_, ?_⟩
    · simp only [wfInstr, u4.fromU8, u4.little, u4.big, and_fifteen, shiftRight_four]
      omega
    · rw [if_neg (by simp)]
      simp only [Instruction.opcode, u4.fromU8, u4.little, and_fifteen]
      rw [const_lor_eq_add 0xF0 _ 4 16 (by norm_num) (by omega) (by norm_num)]
      rw [shiftLeft_lor_eq_add _ _ 8 (by omega)]
      omega
  rw [if_neg c31] at h
  by_cases c32 : upper / 16 * 16 = 0xF0 ∧ lower / 16 * 16 = 0x30 ∧ lower % 16 = 0x03
  · -- SetBcd
    rw [if_pos c32] at h
    injection h with h; subst h
    refine ⟨?_, ?_⟩
    · simp only [wfInstr, u4.fromU8, u4.little, u4.big, and_fifteen, shiftRight_four]
      omega
    · rw [if_neg (by simp)]
      simp only [Instruction.opcode, u4.fromU8, u4.little, and_fifteen]
      rw [const_lor_eq_add 0xF0 _ 4 16 (by norm_num) (by omega) (by norm_num)]
      rw [shiftLeft_lor_eq_add _ _ 8 (by omega)]
      omega
  rw [if_neg c32] at h
  by_cases c33 : upper / 16 * 16 = 0xF0 ∧ lower / 16 * 16 = 0x50 ∧ lower % 16 = 0x05
  · -- MemWrite
    rw [if_pos c33] at h
    injection h with h; subst h
    refine ⟨?_, ?_⟩
    · simp only [wfInstr, u4.fromU8, u4.little, u4.big, and_fifteen, shiftRight_four]
      omega
    · rw [if_neg (by simp)]
      simp only [Instruction.opcode, u4.fromU8, u4.little, and_fifteen]
      rw [const_lor_eq_add 0xF0 _ 4 16 (by norm_num) (by omega) (by norm_num)]
      rw [shiftLeft_lor_eq_add _ _ 8 (by omega)]
      omega
  rw [if_neg c33] at h
  by_cases c34 : upper / 16 * 16 = 0xF0 ∧ lower / 16 * 16 = 0x60 ∧ lower % 16 = 0x05
  · -- MemRead
    rw [if_pos c34] at h
    injection h with h; subst h
    refine ⟨?_, ?_⟩
    · simp only [wfInstr, u4.fromU8, u4.little, u4.big, and_fifteen, shiftRight_four]
      omega
    · rw [if_neg (by simp)]
      simp only [Instruction.opcode, u4.fromU8, u4.little, and_fifteen]
      rw [const_lor_eq_add 0xF0 _ 4 16 (by norm_num) (by omega) (by norm_num)]
      rw [shiftLeft_lor_eq_add _ _ 8 (by omega)]
      omega
  rw [if_neg c34] at h
  by_cases c35 : upper / 16 * 16 = 0xF0 ∧ upper % 16 = 0x01 ∧ lower / 16 * 16 = 0xE0 ∧ lower % 16 = 0x0E
  · -- Exit
    rw [if_pos c35] at h
    injection h with h; subst h
    refine ⟨?_, ?_⟩
    · trivial
    · rw [if_neg (by simp)]
      simp only [Instruction.opcode]
      omega
  rw [if_neg c35] at h
  by_cases c36 : upper / 16 * 16 = 0xF0 ∧ lower / 16 * 16 = 0xE0 ∧ lower % 16 = 0x0F
  · -- Debug
    rw [if_pos c36] at h
    injection h with h; subst h
    refine ⟨?_, ?_⟩
    · simp only [wfInstr, u4.fromU8, u4.little, u4.big, and_fifteen, shiftRight_four]
      omega
    · rw [if_neg (by simp)]
      simp only [Instruction.opcode, u4.fromU8, u4.little, and_fifteen]
      rw [const_lor_eq_add 0xF0 _ 4 16 (by norm_num) (by omega) (by norm_num)]
      rw [shiftLeft_lor_eq_add _ _ 8 (by omega)]
      omega
  rw [if_neg c36] at h
  by_cases c37 : upper / 16 * 16 = 0xF0 ∧ lower / 16 * 16 = 0xF0 ∧ lower % 16 = 0x0F
  · -- Breakpoint
    rw [if_pos c37] at h
    injection h with h; subst h
    exact ⟨trivial, by rw [if_pos rfl]; rfl⟩
  rw [if_neg c37] at h
  exact absurd h (by simp)

set_option maxHeartbeats 1600000 in
/-- C1: for every defined `Instruction` variant with operands of the
proper widths, encoding with `Instruction.opcode` and decoding the
resulting 16-bit word with `Instruction.fromOpcodeU16` returns `some` of
the original instruction. -/
theorem C1_decode_encode_roundtrip (i : Instruction) (hwf : wfInstr i) :
    Instruction.fromOpcodeU16 i.opcode = some i := by
  cases i with
  | Exit => decide
  | Debug x =>
    obtain ⟨v⟩ := x
    simp only [wfInstr] at hwf
    simp only [Instruction.opcode]
    rw [const_lor_eq_add 0xF0 v 4 16 (by norm_num) hwf (by norm_num)]
    rw [shiftLeft_lor_eq_add _ _ 8 (by norm_num)]
    have hsplit : (0xF0 + v) * 2 ^ 8 + 0xEF = (0xF0 + v) * 256 + 0xEF := by norm_num
    rw [hsplit, fromOpcodeU16_split _ _ (by omega) (by norm_num)]
    have hb := byte_nibbles (0xF0 + v) (by omega)
    have e1 : (0xF0 + v) &&& 0xF0 = 0xF0 := by rw [hb.1]; omega
    have e2 : (0xF0 + v) &&& 0x0F = v := by rw [hb.2]; omega
    have e3 : (0xEF : Nat) &&& 0xF0 = 0xEF / 16 * 16 := by decide
    have e4 : (0xEF : Nat) &&& 0x0F = 0xEF % 16 := by decide
    have e5 : v &&& 0x0F = v := by rw [and_fifteen]; omega
    simp [Instruction.fromOpcodeU8, e1, e2, e3, e4, e5, u4.little, u4.fromU8]
  | Breakpoint => decide
  | Clear => decide
  | Return => decide
  | Jump a =>
    obtain ⟨v⟩ := a
    simp only [wfInstr] at hwf
    simp only [Instruction.opcode]
    rw [const_lor_eq_add 0x1000 v 12 4096 (by norm_num) hwf (by norm_num)]
    have hsplit : 0x1000 + v = (0x1000 / 256 + v / 256) * 256 + v % 256 := by omega
    rw [hsplit, fromOpcodeU16_split _ _ (by omega) (by omega)]
    have hb := byte_nibbles (0x1000 / 256 + v / 256) (by omega)
    have e1 : (0x1000 / 256 + v / 256) &&& 0xF0 = 0x1000 / 256 := by rw [hb.1]; omega
    have e2 : (0x1000 / 256 + v / 256) &&& 0x0F = v / 256 := by rw [hb.2]; omega
    have lb := byte_nibbles (v % 256) (by omega)
    have e3 : v % 256 &&& 0xF0 = v % 256 / 16 * 16 := lb.1
    have e4 : v % 256 &&& 0x0F = v % 256 % 16 := lb.2
    simp [Instruction.fromOpcodeU8, e1, e2, e3, e4, u12.fromBytes]
    rw [shiftLeft_lor_eq_add _ _ 8 (by omega)]
    have hv : v / 256 * 2 ^ 8 + v % 256 = v := by omega
    rw [hv]
  | Call a =>
    obtain ⟨v⟩ := a
    simp only [wfInstr] at hwf
    simp only [Instruction.opcode]
    rw [const_lor_eq_add 0x2000 v 12 4096 (by norm_num) hwf (by norm_num)]
    have hsplit : 0x2000 + v = (0x2000 / 256 + v / 256) * 256 + v % 256 := by omega
    rw [hsplit, fromOpcodeU16_split _ _ (by omega) (by omega)]
    have hb := byte_nibbles (0x2000 / 256 + v / 256) (by omega)
    have e1 : (0x2000 / 256 + v / 256) &&& 0xF0 = 0x2000 / 256 := by rw [hb.1]; omega
    have e2 : (0x2000 / 256 + v / 256) &&& 0x0F = v / 256 := by rw [hb.2]; omega
    have lb := byte_nibbles (v % 256) (by omega)
    have e3 : v % 256 &&& 0xF0 = v % 256 / 16 * 16 := lb.1
    have e4 : v % 256 &&& 0x0F = v % 256 % 16 := lb.2
    simp [Instruction.fromOpcodeU8, e1, e2, e3, e4, u12.fromBytes]
    rw [shiftLeft_lor_eq_add _ _ 8 (by omega)]
    have hv : v / 256 * 2 ^ 8 + v % 256 = v := by omega
    rw [hv]
  | SkipEqual x kk =>
    obtain ⟨v⟩ := x
    simp only [wfInstr] at hwf
    obtain ⟨hv, hkk⟩ := hwf
    simp only [Instruction.opcode]
    rw [const_lor_eq_add 0x30 v 4 16 (by norm_num) hv (by norm_num)]
    rw [shiftLeft_lor_eq_add _ _ 8 (by omega)]
    have hsplit : (0x30 + v) * 2 ^ 8 + kk = (0x30 + v) * 256 + kk := by norm_num
    rw [hsplit, fromOpcodeU16_split _ _ (by omega) hkk]
    have hb := byte_nibbles (0x30 + v) (by omega)
    have e1 : (0x30 + v) &&& 0xF0 = 0x30 := by rw [hb.1]; omega
    have e2 : (0x30 + v) &&& 0x0F = v := by rw [hb.2]; omega
    have lb := byte_nibbles kk (by omega)
    have e3 : kk &&& 0xF0 = kk / 16 * 16 := lb.1
    have e4 : kk &&& 0x0F = kk % 16 := lb.2
    have e5 : v &&& 0x0F = v := by rw [and_fifteen]; omega
    simp [Instruction.fromOpcodeU8, e1, e2, e3, e4, e5, u4.little, u4.fromU8]
  | SkipNotEqual x kk =>
    obtain ⟨v⟩ := x
    simp only [wfInstr] at hwf
    obtain ⟨hv, hkk⟩ := hwf
    simp only [Instruction.opcode]
    rw [const_lor_eq_add 0x40 v 4 16 (by norm_num) hv (by norm_num)]
    rw [shiftLeft_lor_eq_add _ _ 8 (by omega)]
    have hsplit : (0x40 + v) * 2 ^ 8 + kk = (0x40 + v) * 256 + kk := by norm_num
    rw [hsplit, fromOpcodeU16_split _ _ (by omega) hkk]
    have hb := byte_nibbles (0x40 + v) (by omega)
    have e1 : (0x40 + v) &&& 0xF0 = 0x40 := by rw [hb.1]; omega
    have e2 : (0x40 + v) &&& 0x0F = v := by rw [hb.2]; omega
    have lb := byte_nibbles kk (by omega)
    have e3 : kk &&& 0xF0 = kk / 16 * 16 := lb.1
    have e4 : kk &&& 0x0F = kk % 16 := lb.2
    have e5 : v &&& 0x0F = v := by rw [and_fifteen]; omega
    simp [Instruction.fromOpcodeU8, e1, e2, e3, e4, e5, u4.little, u4.fromU8]
  | SkipRegistersEqual x y =>
    obtain ⟨v⟩ := x
    obtain ⟨w⟩ := y
    simp only [wfInstr] at hwf
    obtain ⟨hv, hw⟩ := hwf
    simp only [Instruction.opcode]
    rw [shiftLeft_four]
    rw [mul_sixteen_lor _ _ (by norm_num), Nat.add_zero]
    rw [const_lor_eq_add 0x50 v 4 16 (by norm_num) hv (by norm_num)]
    rw [shiftLeft_lor_eq_add _ _ 8 (by omega)]
    have hsplit : (0x50 + v) * 2 ^ 8 + (w * 16) = (0x50 + v) * 256 + (w * 16) := by omega
    rw [hsplit, fromOpcodeU16_split _ _ (by omega) (by omega)]
    have hb := byte_nibbles (0x50 + v) (by omega)
    have e1 : (0x50 + v) &&& 0xF0 = 0x50 := by rw [hb.1]; omega
    have e2 : (0x50 + v) &&& 0x0F = v := by rw [hb.2]; omega
    have lb := byte_nibbles (w * 16) (by omega)
    have e3 : (w * 16) &&& 0xF0 = w * 16 := by rw [lb.1]; omega
    have e4 : (w * 16) &&& 0x0F = 0x00 := by rw [lb.2]; omega
    have e5 : v &&& 0x0F = v := by rw [and_fifteen]; omega
    have e6 : (w * 16) >>> 4 = w := by rw [shiftRight_four]; omega
    have e7 : w &&& 0x0F = w := by rw [and_fifteen]; omega
    simp [Instruction.fromOpcodeU8, e1, e2, e3, e4, e5, e6, e7, u4.little, u4.big,
      u4.fromU8]
  | SetRegisterByte x kk =>
    obtain ⟨v⟩ := x
    simp only [wfInstr] at hwf
    obtain ⟨hv, hkk⟩ := hwf
    simp only [Instruction.opcode]
    rw [const_lor_eq_add 0x60 v 4 16 (by norm_num) hv (by norm_num)]
    rw [shiftLeft_lor_eq_add _ _ 8 (by omega)]
    have hsplit : (0x60 + v) * 2 ^ 8 + kk = (0x60 + v) * 256 + kk := by norm_num
    rw [hsplit, fromOpcodeU16_split _ _ (by omega) hkk]
    have hb := byte_nibbles (0x60 + v) (by omega)
    have e1 : (0x60 + v) &&& 0xF0 = 0x60 := by rw [hb.1]; omega
    have e2 : (0x60 + v) &&& 0x0F = v := by rw [hb.2]; omega
    have lb := byte_nibbles kk (by omega)
    have e3 : kk &&& 0xF0 = kk / 16 * 16 := lb.1
    have e4 : kk &&& 0x0F = kk % 16 := lb.2
    have e5 : v &&& 0x0F = v := by rw [and_fifteen]; omega
    simp [Instruction.fromOpcodeU8, e1, e2, e3, e4, e5, u4.little, u4.fromU8]
  | Add x kk =>
    obtain ⟨v⟩ := x
    simp only [wfInstr] at hwf
    obtain ⟨hv, hkk⟩ := hwf
    simp only [Instruction.opcode]
    rw [const_lor_eq_add 0x70 v 4 16 (by norm_num) hv (by norm_num)]
    rw [shiftLeft_lor_eq_add _ _ 8 (by omega)]
    have hsplit : (0x70 + v) * 2 ^ 8 + kk = (0x70 + v) * 256 + kk := by norm_num
    rw [hsplit, fromOpcodeU16_split _ _ (by omega) hkk]
    have hb := byte_nibbles (0x70 + v) (by omega)
    have e1 : (0x70 + v) &&& 0xF0 = 0x70 := by rw [hb.1]; omega
    have e2 : (0x70 + v) &&& 0x0F = v := by rw [hb.2]; omega
    have lb := byte_nibbles kk (by omega)
    have e3 : kk &&& 0xF0 = kk / 16 * 16 := lb.1
    have e4 : kk &&& 0x0F = kk % 16 := lb.2
    have e5 : v &&& 0x0F = v := by rw [and_fifteen]; omega
    simp [Instruction.fromOpcodeU8, e1, e2, e3, e4, e5, u4.little, u4.fromU8]
  | SetRegisterRegister x y =>
    obtain ⟨v⟩ := x
    obtain ⟨w⟩ := y
    simp only [wfInstr] at hwf
    obtain ⟨hv, hw⟩ := hwf
    simp only [Instruction.opcode]
    rw [shiftLeft_four]
    rw [const_lor_eq_add 0x80 v 4 16 (by norm_num) hv (by norm_num)]
    rw [shiftLeft_lor_eq_add _ _ 8 (by omega)]
    have hsplit : (0x80 + v) * 2 ^ 8 + (w * 16) = (0x80 + v) * 256 + (w * 16) := by omega
    rw [hsplit, fromOpcodeU16_split _ _ (by omega) (by omega)]
    have hb := byte_nibbles (0x80 + v) (by omega)
    have e1 : (0x80 + v) &&& 0xF0 = 0x80 := by rw [hb.1]; omega
    have e2 : (0x80 + v) &&& 0x0F = v := by rw [hb.2]; omega
    have lb := byte_nibbles (w * 16) (by omega)
    have e3 : (w * 16) &&& 0xF0 = w * 16 := by rw [lb.1]; omega
    have e4 : (w * 16) &&& 0x0F = 0x00 := by rw [lb.2]; omega
    have e5 : v &&& 0x0F = v := by rw [and_fifteen]; omega
    have e6 : (w * 16) >>> 4 = w := by rw [shiftRight_four]; omega
    have e7 : w &&& 0x0F = w := by rw [and_fifteen]; omega
    simp [Instruction.fromOpcodeU8, e1, e2, e3, e4, e5, e6, e7, u4.little, u4.big,
      u4.fromU8]
  | Or x y =>
    obtain ⟨v⟩ := x
    obtain ⟨w⟩ := y
    simp only [wfInstr] at hwf
    obtain ⟨hv, hw⟩ := hwf
    simp only [Instruction.opcode]
    rw [shiftLeft_four]
    rw [mul_sixteen_lor _ _ (by norm_num)]
    rw [const_lor_eq_add 0x80 v 4 16 (by norm_num) hv (by norm_num)]
    rw [shiftLeft_lor_eq_add _ _ 8 (by omega)]
    have hsplit : (0x80 + v) * 2 ^ 8 + (w * 16 + 0x01) = (0x80 + v) * 256 + (w * 16 + 0x01) := by omega
    rw [hsplit, fromOpcodeU16_split _ _ (by omega) (by omega)]
    have hb := byte_nibbles (0x80 + v) (by omega)
    have e1 : (0x80 + v) &&& 0xF0 = 0x80 := by rw [hb.1]; omega
    have e2 : (0x80 + v) &&& 0x0F = v := by rw [hb.2]; omega
    have lb := byte_nibbles (w * 16 + 0x01) (by omega)
    have e3 : (w * 16 + 0x01) &&& 0xF0 = w * 16 := by rw [lb.1]; omega
    have e4 : (w * 16 + 0x01) &&& 0x0F = 0x01 := by rw [lb.2]; omega
    have e5 : v &&& 0x0F = v := by rw [and_fifteen]; omega
    have e6 : (w * 16) >>> 4 = w := by rw [shiftRight_four]; omega
    have e7 : w &&& 0x0F = w := by rw [and_fifteen]; omega
    simp [Instruction.fromOpcodeU8, e1, e2, e3, e4, e5, e6, e7, u4.little, u4.big,
      u4.fromU8]
  | And x y =>
    obtain ⟨v⟩ := x
    obtain ⟨w⟩ := y
    simp only [wfInstr] at hwf
    obtain ⟨hv, hw⟩ := hwf
    simp only [Instruction.opcode]
    rw [shiftLeft_four]
    rw [mul_sixteen_lor _ _ (by norm_num)]
    rw [const_lor_eq_add 0x80 v 4 16 (by norm_num) hv (by norm_num)]
    rw [shiftLeft_lor_eq_add _ _ 8 (by omega)]
    have hsplit : (0x80 + v) * 2 ^ 8 + (w * 16 + 0x02) = (0x80 + v) * 256 + (w * 16 + 0x02) := by omega
    rw [hsplit, fromOpcodeU16_split _ _ (by omega) (by omega)]
    have hb := byte_nibbles (0x80 + v) (by omega)
    have e1 : (0x80 + v) &&& 0xF0 = 0x80 := by rw [hb.1]; omega
    have e2 : (0x80 + v) &&& 0x0F = v := by rw [hb.2]; omega
    have lb := byte_nibbles (w * 16 + 0x02) (by omega)
    have e3 : (w * 16 + 0x02) &&& 0xF0 = w * 16 := by rw [lb.1]; omega
    have e4 : (w * 16 + 0x02) &&& 0x0F = 0x02 := by rw [lb.2]; omega
    have e5 : v &&& 0x0F = v := by rw [and_fifteen]; omega
    have e6 : (w * 16) >>> 4 = w := by rw [shiftRight_four]; omega
    have e7 : w &&& 0x0F = w := by rw [and_fifteen]; omega
    simp [Instruction.fromOpcodeU8, e1, e2, e3, e4, e5, e6, e7, u4.little, u4.big,
      u4.fromU8]
  | Xor x y =>
    obtain ⟨v⟩ := x
    obtain ⟨w⟩ := y
    simp only [wfInstr] at hwf
    obtain ⟨hv, hw⟩ := hwf
    simp only [Instruction.opcode]
    rw [shiftLeft_four]
    rw [mul_sixteen_lor _ _ (by norm_num)]
    rw [const_lor_eq_add 0x80 v 4 16 (by norm_num) hv (by norm_num)]
    rw [shiftLeft_lor_eq_add _ _ 8 (by omega)]
    have hsplit : (0x80 + v) * 2 ^ 8 + (w * 16 + 0x03) = (0x80 + v) * 256 + (w * 16 + 0x03) := by omega
    rw [hsplit, fromOpcodeU16_split _ _ (by omega) (by omega)]
    have hb := byte_nibbles (0x80 + v) (by omega)
    have e1 : (0x80 + v) &&& 0xF0 = 0x80 := by rw [hb.1]; omega
    have e2 : (0x80 + v) &&& 0x0F = v := by rw [hb.2]; omega
    have lb := byte_nibbles (w * 16 + 0x03) (by omega)
    have e3 : (w * 16 + 0x03) &&& 0xF0 = w * 16 := by rw [lb.1]; omega
    have e4 : (w * 16 + 0x03) &&& 0x0F = 0x03 := by rw [lb.2]; omega
    have e5 : v &&& 0x0F = v := by rw [and_fifteen]; omega
    have e6 : (w * 16) >>> 4 = w := by rw [shiftRight_four]; omega
    have e7 : w &&& 0x0F = w := by rw [and_fifteen]; omega
    simp [Instruction.fromOpcodeU8, e1, e2, e3, e4, e5, e6, e7, u4.little, u4.big,
      u4.fromU8]
  | AddChecked x y =>
    obtain ⟨v⟩ := x
    obtain ⟨w⟩ := y
    simp only [wfInstr] at hwf
    obtain ⟨hv, hw⟩ := hwf
    simp only [Instruction.opcode]
    rw [shiftLeft_four]
    rw [mul_sixteen_lor _ _ (by norm_num)]
    rw [const_lor_eq_add 0x80 v 4 16 (by norm_num) hv (by norm_num)]
    rw [shiftLeft_lor_eq_add _ _ 8 (by omega)]
    have hsplit : (0x80 + v) * 2 ^ 8 + (w * 16 + 0x04) = (0x80 + v) * 256 + (w * 16 + 0x04) := by omega
    rw [hsplit, fromOpcodeU16_split _ _ (by omega) (by omega)]
    have hb := byte_nibbles (0x80 + v) (by omega)
    have e1 : (0x80 + v) &&& 0xF0 = 0x80 := by rw [hb.1]; omega
    have e2 : (0x80 + v) &&& 0x0F = v := by rw [hb.2]; omega
    have lb := byte_nibbles (w * 16 + 0x04) (by omega)
    have e3 : (w * 16 + 0x04) &&& 0xF0 = w * 16 := by rw [lb.1]; omega
    have e4 : (w * 16 + 0x04) &&& 0x0F = 0x04 := by rw [lb.2]; omega
    have e5 : v &&& 0x0F = v := by rw [and_fifteen]; omega
    have e6 : (w * 16) >>> 4 = w := by rw [shiftRight_four]; omega
    have e7 : w &&& 0x0F = w := by rw [and_fifteen]; omega
    simp [Instruction.fromOpcodeU8, e1, e2, e3, e4, e5, e6, e7, u4.little, u4.big,
      u4.fromU8]
  | SubChecked x y =>
    obtain ⟨v⟩ := x
    obtain ⟨w⟩ := y
    simp only [wfInstr] at hwf
    obtain ⟨hv, hw⟩ := hwf
    simp only [Instruction.opcode]
    rw [shiftLeft_four]
    rw [mul_sixteen_lor _ _ (by norm_num)]
    rw [const_lor_eq_add 0x80 v 4 16 (by norm_num) hv (by norm_num)]
    rw [shiftLeft_lor_eq_add _ _ 8 (by omega)]
    have hsplit : (0x80 + v) * 2 ^ 8 + (w * 16 + 0x05) = (0x80 + v) * 256 + (w * 16 + 0x05) := by omega
    rw [hsplit, fromOpcodeU16_split _ _ (by omega) (by omega)]
    have hb := byte_nibbles (0x80 + v) (by omega)
    have e1 : (0x80 + v) &&& 0xF0 = 0x80 := by rw [hb.1]; omega
    have e2 : (0x80 + v) &&& 0x0F = v := by rw [hb.2]; omega
    have lb := byte_nibbles (w * 16 + 0x05) (by omega)
    have e3 : (w * 16 + 0x05) &&& 0xF0 = w * 16 := by rw [lb.1]; omega
    have e4 : (w * 16 + 0x05) &&& 0x0F = 0x05 := by rw [lb.2]; omega
    have e5 : v &&& 0x0F = v := by rw [and_fifteen]; omega
    have e6 : (w * 16) >>> 4 = w := by rw [shiftRight_four]; omega
    have e7 : w &&& 0x0F = w := by rw [and_fifteen]; omega
    simp [Instruction.fromOpcodeU8, e1, e2, e3, e4, e5, e6, e7, u4.little, u4.big,
      u4.fromU8]
  | ShiftRight x y =>
    obtain ⟨v⟩ := x
    obtain ⟨w⟩ := y
    simp only [wfInstr] at hwf
    obtain ⟨hv, hw⟩ := hwf
    simp only [Instruction.opcode]
    rw [shiftLeft_four]
    rw [mul_sixteen_lor _ _ (by norm_num)]
    rw [const_lor_eq_add 0x80 v 4 16 (by norm_num) hv (by norm_num)]
    rw [shiftLeft_lor_eq_add _ _ 8 (by omega)]
    have hsplit : (0x80 + v) * 2 ^ 8 + (w * 16 + 0x06) = (0x80 + v) * 256 + (w * 16 + 0x06) := by omega
    rw [hsplit, fromOpcodeU16_split _ _ (by omega) (by omega)]
    have hb := byte_nibbles (0x80 + v) (by omega)
    have e1 : (0x80 + v) &&& 0xF0 = 0x80 := by rw [hb.1]; omega
    have e2 : (0x80 + v) &&& 0x0F = v := by rw [hb.2]; omega
    have lb := byte_nibbles (w * 16 + 0x06) (by omega)
    have e3 : (w * 16 + 0x06) &&& 0xF0 = w * 16 := by rw [lb.1]; omega
    have e4 : (w * 16 + 0x06) &&& 0x0F = 0x06 := by rw [lb.2]; omega
    have e5 : v &&& 0x0F = v := by rw [and_fifteen]; omega
    have e6 : (w * 16) >>> 4 = w := by rw [shiftRight_four]; omega
    have e7 : w &&& 0x0F = w := by rw [and_fifteen]; omega
    simp [Instruction.fromOpcodeU8, e1, e2, e3, e4, e5, e6, e7, u4.little, u4.big,
      u4.fromU8]
  | SubNChecked x y =>
    obtain ⟨v⟩ := x
    obtain ⟨w⟩ := y
    simp only [wfInstr] at hwf
    obtain ⟨hv, hw⟩ := hwf
    simp only [Instruction.opcode]
    rw [shiftLeft_four]
    rw [mul_sixteen_lor _ _ (by norm_num)]
    rw [const_lor_eq_add 0x80 v 4 16 (by norm_num) hv (by norm_num)]
    rw [shiftLeft_lor_eq_add _ _ 8 (by omega)]
    have hsplit : (0x80 + v) * 2 ^ 8 + (w * 16 + 0x07) = (0x80 + v) * 256 + (w * 16 + 0x07) := by omega
    rw [hsplit, fromOpcodeU16_split _ _ (by omega) (by omega)]
    have hb := byte_nibbles (0x80 + v) (by omega)
    have e1 : (0x80 + v) &&& 0xF0 = 0x80 := by rw [hb.1]; omega
    have e2 : (0x80 + v) &&& 0x0F = v := by rw [hb.2]; omega
    have lb := byte_nibbles (w * 16 + 0x07) (by omega)
    have e3 : (w * 16 + 0x07) &&& 0xF0 = w * 16 := by rw [lb.1]; omega
    have e4 : (w * 16 + 0x07) &&& 0x0F = 0x07 := by rw [lb.2]; omega
    have e5 : v &&& 0x0F = v := by rw [and_fifteen]; omega
    have e6 : (w * 16) >>> 4 = w := by rw [shiftRight_four]; omega
    have e7 : w &&& 0x0F = w := by rw [and_fifteen]; omega
    simp [Instruction.fromOpcodeU8, e1, e2, e3, e4, e5, e6, e7, u4.little, u4.big,
      u4.fromU8]
  | ShiftLeft x y =>
    obtain ⟨v⟩ := x
    obtain ⟨w⟩ := y
    simp only [wfInstr] at hwf
    obtain ⟨hv, hw⟩ := hwf
    simp only [Instruction.opcode]
    rw [shiftLeft_four]
    rw [mul_sixteen_lor _ _ (by norm_num)]
    rw [const_lor_eq_add 0x80 v 4 16 (by norm_num) hv (by norm_num)]
    rw [shiftLeft_lor_eq_add _ _ 8 (by omega)]
    have hsplit : (0x80 + v) * 2 ^ 8 + (w * 16 + 0x0E) = (0x80 + v) * 256 + (w * 16 + 0x0E) := by omega
    rw [hsplit, fromOpcodeU16_split _ _ (by omega) (by omega)]
    have hb := byte_nibbles (0x80 + v) (by omega)
    have e1 : (0x80 + v) &&& 0xF0 = 0x80 := by rw [hb.1]; omega
    have e2 : (0x80 + v) &&& 0x0F = v := by rw [hb.2]; omega
    have lb := byte_nibbles (w * 16 + 0x0E) (by omega)
    have e3 : (w * 16 + 0x0E) &&& 0xF0 = w * 16 := by rw [lb.1]; omega
    have e4 : (w * 16 + 0x0E) &&& 0x0F = 0x0E := by rw [lb.2]; omega
    have e5 : v &&& 0x0F = v := by rw [and_fifteen]; omega
    have e6 : (w * 16) >>> 4 = w := by rw [shiftRight_four]; omega
    have e7 : w &&& 0x0F = w := by rw [and_fifteen]; omega
    simp [Instruction.fromOpcodeU8, e1, e2, e3, e4, e5, e6, e7, u4.little, u4.big,
      u4.fromU8]
  | SkipRegistersNotEqual x y =>
    obtain ⟨v⟩ := x
    obtain ⟨w⟩ := y
    simp only [wfInstr] at hwf
    obtain ⟨hv, hw⟩ := hwf
    simp only [Instruction.opcode]
    rw [shiftLeft_four]
    rw [mul_sixteen_lor _ _ (by norm_num), Nat.add_zero]
    rw [const_lor_eq_add 0x90 v 4 16 (by norm_num) hv (by norm_num)]
    rw [shiftLeft_lor_eq_add _ _ 8 (by omega)]
    have hsplit : (0x90 + v) * 2 ^ 8 + (w * 16) = (0x90 + v) * 256 + (w * 16) := by omega
    rw [hsplit, fromOpcodeU16_split _ _ (by omega) (by omega)]
    have hb := byte_nibbles (0x90 + v) (by omega)
    have e1 : (0x90 + v) &&& 0xF0 = 0x90 := by rw [hb.1]; omega
    have e2 : (0x90 + v) &&& 0x0F = v := by rw [hb.2]; omega
    have lb := byte_nibbles (w * 16) (by omega)
    have e3 : (w * 16) &&& 0xF0 = w * 16 := by rw [lb.1]; omega
    have e4 : (w * 16) &&& 0x0F = 0x00 := by rw [lb.2]; omega
    have e5 : v &&& 0x0F = v := by rw [and_fifteen]; omega
    have e6 : (w * 16) >>> 4 = w := by rw [shiftRight_four]; omega
    have e7 : w &&& 0x0F = w := by rw [and_fifteen]; omega
    simp [Instruction.fromOpcodeU8, e1, e2, e3, e4, e5, e6, e7, u4.little, u4.big,
      u4.fromU8]
  | SetMemRegister a =>
    obtain ⟨v⟩ := a
    simp only [wfInstr] at hwf
    simp only [Instruction.opcode]
    rw [const_lor_eq_add 0xA000 v 12 4096 (by norm_num) hwf (by norm_num)]
    have hsplit : 0xA000 + v = (0xA000 / 256 + v / 256) * 256 + v % 256 := by omega
    rw [hsplit, fromOpcodeU16_split _ _ (by omega) (by omega)]
    have hb := byte_nibbles (0xA000 / 256 + v / 256) (by omega)
    have e1 : (0xA000 / 256 + v / 256) &&& 0xF0 = 0xA000 / 256 := by rw [hb.1]; omega
    have e2 : (0xA000 / 256 + v / 256) &&& 0x0F = v / 256 := by rw [hb.2]; omega
    have lb := byte_nibbles (v % 256) (by omega)
    have e3 : v % 256 &&& 0xF0 = v % 256 / 16 * 16 := lb.1
    have e4 : v % 256 &&& 0x0F = v % 256 % 16 := lb.2
    simp [Instruction.fromOpcodeU8, e1, e2, e3, e4, u12.fromBytes]
    rw [shiftLeft_lor_eq_add _ _ 8 (by omega)]
    have hv : v / 256 * 2 ^ 8 + v % 256 = v := by omega
    rw [hv]
  | JumpOffset a =>
    obtain ⟨v⟩ := a
    simp only [wfInstr] at hwf
    simp only [Instruction.opcode]
    rw [const_lor_eq_add 0xB000 v 12 4096 (by norm_num) hwf (by norm_num)]
    have hsplit : 0xB000 + v = (0xB000 / 256 + v / 256) * 256 + v % 256 := by omega
    rw [hsplit, fromOpcodeU16_split _ _ (by omega) (by omega)]
    have hb := byte_nibbles (0xB000 / 256 + v / 256) (by omega)
    have e1 : (0xB000 / 256 + v / 256) &&& 0xF0 = 0xB000 / 256 := by rw [hb.1]; omega
    have e2 : (0xB000 / 256 + v / 256) &&& 0x0F = v / 256 := by rw [hb.2]; omega
    have lb := byte_nibbles (v % 256) (by omega)
    have e3 : v % 256 &&& 0xF0 = v % 256 / 16 * 16 := lb.1
    have e4 : v % 256 &&& 0x0F = v % 256 % 16 := lb.2
    simp [Instruction.fromOpcodeU8, e1, e2, e3, e4, u12.fromBytes]
    rw [shiftLeft_lor_eq_add _ _ 8 (by omega)]
    have hv : v / 256 * 2 ^ 8 + v % 256 = v := by omega
    rw [hv]
  | Randomize x kk =>
    obtain ⟨v⟩ := x
    simp only [wfInstr] at hwf
    obtain ⟨hv, hkk⟩ := hwf
    simp only [Instruction.opcode]
    rw [const_lor_eq_add 0xC0 v 4 16 (by norm_num) hv (by norm_num)]
    rw [shiftLeft_lor_eq_add _ _ 8 (by omega)]
    have hsplit : (0xC0 + v) * 2 ^ 8 + kk = (0xC0 + v) * 256 + kk := by norm_num
    rw [hsplit, fromOpcodeU16_split _ _ (by omega) hkk]
    have hb := byte_nibbles (0xC0 + v) (by omega)
    have e1 : (0xC0 + v) &&& 0xF0 = 0xC0 := by rw [hb.1]; omega
    have e2 : (0xC0 + v) &&& 0x0F = v := by rw [hb.2]; omega
    have lb := byte_nibbles kk (by omega)
    have e3 : kk &&& 0xF0 = kk / 16 * 16 := lb.1
    have e4 : kk &&& 0x0F = kk % 16 := lb.2
    have e5 : v &&& 0x0F = v := by rw [and_fifteen]; omega
    simp [Instruction.fromOpcodeU8, e1, e2, e3, e4, e5, u4.little, u4.fromU8]
  | Draw x y n =>
    obtain ⟨v⟩ := x
    obtain ⟨w⟩ := y
    obtain ⟨t⟩ := n
    simp only [wfInstr] at hwf
    obtain ⟨hv, hw, ht⟩ := hwf
    simp only [Instruction.opcode]
    rw [shiftLeft_four]
    rw [mul_sixteen_lor _ _ ht]
    rw [const_lor_eq_add 0xD0 v 4 16 (by norm_num) hv (by norm_num)]
    rw [shiftLeft_lor_eq_add _ _ 8 (by omega)]
    have hsplit : (0xD0 + v) * 2 ^ 8 + (w * 16 + t) = (0xD0 + v) * 256 + (w * 16 + t) := by
      norm_num
    rw [hsplit, fromOpcodeU16_split _ _ (by omega) (by omega)]
    have hb := byte_nibbles (0xD0 + v) (by omega)
    have e1 : (0xD0 + v) &&& 0xF0 = 0xD0 := by rw [hb.1]; omega
    have e2 : (0xD0 + v) &&& 0x0F = v := by rw [hb.2]; omega
    have lb := byte_nibbles (w * 16 + t) (by omega)
    have e3 : (w * 16 + t) &&& 0xF0 = w * 16 := by rw [lb.1]; omega
    have e4 : (w * 16 + t) &&& 0x0F = t := by rw [lb.2]; omega
    have e5 : v &&& 0x0F = v := by rw [and_fifteen]; omega
    have e6 : (w * 16) >>> 4 = w := by rw [shiftRight_four]; omega
    have e7 : w &&& 0x0F = w := by rw [and_fifteen]; omega
    have e8 : t &&& 0x0F = t := by rw [and_fifteen]; omega
    simp [Instruction.fromOpcodeU8, e1, e2, e3, e4, e5, e6, e7, e8, u4.fromU8,
      u4.little]
  | SkipKeyPressed x =>
    obtain ⟨v⟩ := x
    simp only [wfInstr] at hwf
    simp only [Instruction.opcode]
    rw [const_lor_eq_add 0xE0 v 4 16 (by norm_num) hwf (by norm_num)]
    rw [shiftLeft_lor_eq_add _ _ 8 (by norm_num)]
    have hsplit : (0xE0 + v) * 2 ^ 8 + 0x9E = (0xE0 + v) * 256 + 0x9E := by norm_num
    rw [hsplit, fromOpcodeU16_split _ _ (by omega) (by norm_num)]
    have hb := byte_nibbles (0xE0 + v) (by omega)
    have e1 : (0xE0 + v) &&& 0xF0 = 0xE0 := by rw [hb.1]; omega
    have e2 : (0xE0 + v) &&& 0x0F = v := by rw [hb.2]; omega
    have e3 : (0x9E : Nat) &&& 0xF0 = 0x9E / 16 * 16 := by decide
    have e4 : (0x9E : Nat) &&& 0x0F = 0x9E % 16 := by decide
    have e5 : v &&& 0x0F = v := by rw [and_fifteen]; omega
    simp [Instruction.fromOpcodeU8, e1, e2, e3, e4, e5, u4.little, u4.fromU8]
  | SkipKeyNotPressed x =>
    obtain ⟨v⟩ := x
    simp only [wfInstr] at hwf
    simp only [Instruction.opcode]
    rw [const_lor_eq_add 0xE0 v 4 16 (by norm_num) hwf (by norm_num)]
    rw [shiftLeft_lor_eq_add _ _ 8 (by norm_num)]
    have hsplit : (0xE0 + v) * 2 ^ 8 + 0xA1 = (0xE0 + v) * 256 + 0xA1 := by norm_num
    rw [hsplit, fromOpcodeU16_split _ _ (by omega) (by norm_num)]
    have hb := byte_nibbles (0xE0 + v) (by omega)
    have e1 : (0xE0 + v) &&& 0xF0 = 0xE0 := by rw [hb.1]; omega
    have e2 : (0xE0 + v) &&& 0x0F = v := by rw [hb.2]; omega
    have e3 : (0xA1 : Nat) &&& 0xF0 = 0xA1 / 16 * 16 := by decide
    have e4 : (0xA1 : Nat) &&& 0x0F = 0xA1 % 16 := by decide
    have e5 : v &&& 0x0F = v := by rw [and_fifteen]; omega
    simp [Instruction.fromOpcodeU8, e1, e2, e3, e4, e5, u4.little, u4.fromU8]
  | WaitForKey x =>
    obtain ⟨v⟩ := x
    simp only [wfInstr] at hwf
    simp only [Instruction.opcode]
    rw [const_lor_eq_add 0xF0 v 4 16 (by norm_num) hwf (by norm_num)]
    rw [shiftLeft_lor_eq_add _ _ 8 (by norm_num)]
    have hsplit : (0xF0 + v) * 2 ^ 8 + 0x0A = (0xF0 + v) * 256 + 0x0A := by norm_num
    rw [hsplit, fromOpcodeU16_split _ _ (by omega) (by norm_num)]
    have hb := byte_nibbles (0xF0 + v) (by omega)
    have e1 : (0xF0 + v) &&& 0xF0 = 0xF0 := by rw [hb.1]; omega
    have e2 : (0xF0 + v) &&& 0x0F = v := by rw [hb.2]; omega
    have e3 : (0x0A : Nat) &&& 0xF0 = 0x0A / 16 * 16 := by decide
    have e4 : (0x0A : Nat) &&& 0x0F = 0x0A % 16 := by decide
    have e5 : v &&& 0x0F = v := by rw [and_fifteen]; omega
    simp [Instruction.fromOpcodeU8, e1, e2, e3, e4, e5, u4.little, u4.fromU8]
  | SetRegisterDelayTimer x =>
    obtain ⟨v⟩ := x
    simp only [wfInstr] at hwf
    simp only [Instruction.opcode]
    rw [const_lor_eq_add 0xF0 v 4 16 (by norm_num) hwf (by norm_num)]
    rw [shiftLeft_lor_eq_add _ _ 8 (by norm_num)]
    have hsplit : (0xF0 + v) * 2 ^ 8 + 0x07 = (0xF0 + v) * 256 + 0x07 := by norm_num
    rw [hsplit, fromOpcodeU16_split _ _ (by omega) (by norm_num)]
    have hb := byte_nibbles (0xF0 + v) (by omega)
    have e1 : (0xF0 + v) &&& 0xF0 = 0xF0 := by rw [hb.1]; omega
    have e2 : (0xF0 + v) &&& 0x0F = v := by rw [hb.2]; omega
    have e3 : (0x07 : Nat) &&& 0xF0 = 0x07 / 16 * 16 := by decide
    have e4 : (0x07 : Nat) &&& 0x0F = 0x07 % 16 := by decide
    have e5 : v &&& 0x0F = v := by rw [and_fifteen]; omega
    simp [Instruction.fromOpcodeU8, e1, e2, e3, e4, e5, u4.little, u4.fromU8]
  | SetDelayTimer x =>
    obtain ⟨v⟩ := x
    simp only [wfInstr] at hwf
    simp only [Instruction.opcode]
    rw [const_lor_eq_add 0xF0 v 4 16 (by norm_num) hwf (by norm_num)]
    rw [shiftLeft_lor_eq_add _ _ 8 (by norm_num)]
    have hsplit : (0xF0 + v) * 2 ^ 8 + 0x15 = (0xF0 + v) * 256 + 0x15 := by norm_num
    rw [hsplit, fromOpcodeU16_split _ _ (by omega) (by norm_num)]
    have hb := byte_nibbles (0xF0 + v) (by omega)
    have e1 : (0xF0 + v) &&& 0xF0 = 0xF0 := by rw [hb.1]; omega
    have e2 : (0xF0 + v) &&& 0x0F = v := by rw [hb.2]; omega
    have e3 : (0x15 : Nat) &&& 0xF0 = 0x15 / 16 * 16 := by decide
    have e4 : (0x15 : Nat) &&& 0x0F = 0x15 % 16 := by decide
    have e5 : v &&& 0x0F = v := by rw [and_fifteen]; omega
    simp [Instruction.fromOpcodeU8, e1, e2, e3, e4, e5, u4.little, u4.fromU8]
  | SetSoundTimer x =>
    obtain ⟨v⟩ := x
    simp only [wfInstr] at hwf
    simp only [Instruction.opcode]
    rw [const_lor_eq_add 0xF0 v 4 16 (by norm_num) hwf (by norm_num)]
    rw [shiftLeft_lor_eq_add _ _ 8 (by norm_num)]
    have hsplit : (0xF0 + v) * 2 ^ 8 + 0x18 = (0xF0 + v) * 256 + 0x18 := by norm_num
    rw [hsplit, fromOpcodeU16_split _ _ (by omega) (by norm_num)]
    have hb := byte_nibbles (0xF0 + v) (by omega)
    have e1 : (0xF0 + v) &&& 0xF0 = 0xF0 := by rw [hb.1]; omega
    have e2 : (0xF0 + v) &&& 0x0F = v := by rw [hb.2]; omega
    have e3 : (0x18 : Nat) &&& 0xF0 = 0x18 / 16 * 16 := by decide
    have e4 : (0x18 : Nat) &&& 0x0F = 0x18 % 16 := by decide
    have e5 : v &&& 0x0F = v := by rw [and_fifteen]; omega
    simp [Instruction.fromOpcodeU8, e1, e2, e3, e4, e5, u4.little, u4.fromU8]
  | AddMemReg x =>
    obtain ⟨v⟩ := x
    simp only [wfInstr] at hwf
    simp only [Instruction.opcode]
    rw [const_lor_eq_add 0xF0 v 4 16 (by norm_num) hwf (by norm_num)]
    rw [shiftLeft_lor_eq_add _ _ 8 (by norm_num)]
    have hsplit : (0xF0 + v) * 2 ^ 8 + 0x1E = (0xF0 + v) * 256 + 0x1E := by norm_num
    rw [hsplit, fromOpcodeU16_split _ _ (by omega) (by norm_num)]
    have hb := byte_nibbles (0xF0 + v) (by omega)
    have e1 : (0xF0 + v) &&& 0xF0 = 0xF0 := by rw [hb.1]; omega
    have e2 : (0xF0 + v) &&& 0x0F = v := by rw [hb.2]; omega
    have e3 : (0x1E : Nat) &&& 0xF0 = 0x1E / 16 * 16 := by decide
    have e4 : (0x1E : Nat) &&& 0x0F = 0x1E % 16 := by decide
    have e5 : v &&& 0x0F = v := by rw [and_fifteen]; omega
    simp [Instruction.fromOpcodeU8, e1, e2, e3, e4, e5, u4.little, u4.fromU8]
  | SetMemRegisterDefaultSprit x =>
    obtain ⟨v⟩ := x
    simp only [wfInstr] at hwf
    simp only [Instruction.opcode]
    rw [const_lor_eq_add 0xF0 v 4 16 (by norm_num) hwf (by norm_num)]
    rw [shiftLeft_lor_eq_add _ _ 8 (by norm_num)]
    have hsplit : (0xF0 + v) * 2 ^ 8 + 0x29 = (0xF0 + v) * 256 + 0x29 := by norm_num
    rw [hsplit, fromOpcodeU16_split _ _ (by omega) (by norm_num)]
    have hb := byte_nibbles (0xF0 + v) (by omega)
    have e1 : (0xF0 + v) &&& 0xF0 = 0xF0 := by rw [hb.1]; omega
    have e2 : (0xF0 + v) &&& 0x0F = v := by rw [hb.2]; omega
    have e3 : (0x29 : Nat) &&& 0xF0 = 0x29 / 16 * 16 := by decide
    have e4 : (0x29 : Nat) &&& 0x0F = 0x29 % 16 := by decide
    have e5 : v &&& 0x0F = v := by rw [and_fifteen]; omega
    simp [Instruction.fromOpcodeU8, e1, e2, e3, e4, e5, u4.little, u4.fromU8]
  | SetBcd x =>
    obtain ⟨v⟩ := x
    simp only [wfInstr] at hwf
    simp only [Instruction.opcode]
    rw [const_lor_eq_add 0xF0 v 4 16 (by norm_num) hwf (by norm_num)]
    rw [shiftLeft_lor_eq_add _ _ 8 (by norm_num)]
    have hsplit : (0xF0 + v) * 2 ^ 8 + 0x33 = (0xF0 + v) * 256 + 0x33 := by norm_num
    rw [hsplit, fromOpcodeU16_split _ _ (by omega) (by norm_num)]
    have hb := byte_nibbles (0xF0 + v) (by omega)
    have e1 : (0xF0 + v) &&& 0xF0 = 0xF0 := by rw [hb.1]; omega
    have e2 : (0xF0 + v) &&& 0x0F = v := by rw [hb.2]; omega
    have e3 : (0x33 : Nat) &&& 0xF0 = 0x33 / 16 * 16 := by decide
    have e4 : (0x33 : Nat) &&& 0x0F = 0x33 % 16 := by decide
    have e5 : v &&& 0x0F = v := by rw [and_fifteen]; omega
    simp [Instruction.fromOpcodeU8, e1, e2, e3, e4, e5, u4.little, u4.fromU8]
  | MemWrite x =>
    obtain ⟨v⟩ := x
    simp only [wfInstr] at hwf
    simp only [Instruction.opcode]
    rw [const_lor_eq_add 0xF0 v 4 16 (by norm_num) hwf (by norm_num)]
    rw [shiftLeft_lor_eq_add _ _ 8 (by norm_num)]
    have hsplit : (0xF0 + v) * 2 ^ 8 + 0x55 = (0xF0 + v) * 256 + 0x55 := by norm_num
    rw [hsplit, fromOpcodeU16_split _ _ (by omega) (by norm_num)]
    have hb := byte_nibbles (0xF0 + v) (by omega)
    have e1 : (0xF0 + v) &&& 0xF0 = 0xF0 := by rw [hb.1]; omega
    have e2 : (0xF0 + v) &&& 0x0F = v := by rw [hb.2]; omega
    have e3 : (0x55 : Nat) &&& 0xF0 = 0x55 / 16 * 16 := by decide
    have e4 : (0x55 : Nat) &&& 0x0F = 0x55 % 16 := by decide
    have e5 : v &&& 0x0F = v := by rw [and_fifteen]; omega
    simp [Instruction.fromOpcodeU8, e1, e2, e3, e4, e5, u4.little, u4.fromU8]
  | MemRead x =>
    obtain ⟨v⟩ := x
    simp only [wfInstr] at hwf
    simp only [Instruction.opcode]
    rw [const_lor_eq_add 0xF0 v 4 16 (by norm_num) hwf (by norm_num)]
    rw [shiftLeft_lor_eq_add _ _ 8 (by norm_num)]
    have hsplit : (0xF0 + v) * 2 ^ 8 + 0x65 = (0xF0 + v) * 256 + 0x65 := by norm_num
    rw [hsplit, fromOpcodeU16_split _ _ (by omega) (by norm_num)]
    have hb := byte_nibbles (0xF0 + v) (by omega)
    have e1 : (0xF0 + v) &&& 0xF0 = 0xF0 := by rw [hb.1]; omega
    have e2 : (0xF0 + v) &&& 0x0F = v := by rw [hb.2]; omega
    have e3 : (0x65 : Nat) &&& 0xF0 = 0x65 / 16 * 16 := by decide
    have e4 : (0x65 : Nat) &&& 0x0F = 0x65 % 16 := by decide
    have e5 : v &&& 0x0F = v := by rw [and_fifteen]; omega
    simp [Instruction.fromOpcodeU8, e1, e2, e3, e4, e5, u4.little, u4.fromU8]

/-- Witness for C1 at the concrete instruction `Draw 1 2 5` (opcode `0xD125`). -/
theorem C1_decode_encode_roundtrip_witness :
    wfInstr (.Draw ⟨1⟩ ⟨2⟩ ⟨5⟩) ∧
      Instruction.fromOpcodeU16 (Instruction.opcode (.Draw ⟨1⟩ ⟨2⟩ ⟨5⟩)) =
        some (.Draw ⟨1⟩ ⟨2⟩ ⟨5⟩) :=
  ⟨⟨by norm_num, by norm_num, by norm_num⟩,
    C1_decode_encode_roundtrip (.Draw ⟨1⟩ ⟨2⟩ ⟨5⟩) ⟨by norm_num, by norm_num, by norm_num⟩⟩


/-! ## emulator.rs — errors, constants, state -/

/-- `Chip8Error` from `emulator.rs`.  The `IO(io::Error)` variant carries an
abstract payload-free marker here (named `IOFailure`; file I/O is outside the
model). -/
inductive Chip8Error where
  | UnimplementedInstruction
  | InvalidOpcode (msg : String)
  | StackEmpty
  | StackFull
  | IOFailure
deriving DecidableEq, Repr

/-- `KeyStatus` from `emulator.rs`. -/
inductive KeyStatus where
  | up
  | pressed
deriving DecidableEq, Repr

abbrev MEMSIZE : Nat := 4096
abbrev START_ADDR : Nat := 0x200
abbrev REGISTRY_COUNT : Nat := 16
abbrev STACK_SIZE : Nat := 32
abbrev DISPLAY_WIDTH : Nat := 64
abbrev DISPLAY_HEIGHT : Nat := 32
abbrev GRAPHICS_BUFFER_SIZE : Nat := DISPLAY_WIDTH * DISPLAY_HEIGHT / 8
abbrev KEY_COUNT : Nat := 16
abbrev DEFAULT_SPRITE_START_ADDR : Nat := 0x00

/-- The mutable state of `Emulator` (`emulator.rs`).  Arrays are modelled as
total functions out of `Nat`; the `last_*_decrement : Option<Instant>` fields
are modelled by their presence bit, since wall-clock instants are outside the
model (the elapsed-time comparisons enter `tick` as explicit inputs).  The
`hertz`/`timeboxes` configuration and the message receiver belong to the
scheduler model further below. -/
structure Emulator where
  memory : Nat → Nat
  registries : Nat → Nat
  programCounter : Nat
  stackPointer : Nat
  addressRegister : Nat
  delayTimer : Nat
  soundTimer : Nat
  stack : Nat → Nat
  graphicsBuffer : Nat → Nat
  lastDelayDecrement : Bool
  lastSoundDecrement : Bool
  keyStatus : Nat → KeyStatus
  waitForKey : Option Nat

/-- Pointwise array update. -/
def upd (f : Nat → Nat) (i v : Nat) : Nat → Nat :=
  fun j => if j = i then v else f j

/-- Lowercase hex digit, as in Rust's `{:02x}` formatting. -/
def hexChar (n : Nat) : Char :=
  "0123456789abcdef".toList.getD n '0'

/-- Two-digit lowercase hex of a byte. -/
def hex2 (n : Nat) : String :=
  String.mk [hexChar (n / 16 % 16), hexChar (n % 16)]

/-- The message built by `Emulator::instruction` for an invalid opcode:
`format!("0x{:02x}{:02x}", big, little)`. -/
def opcodeHex (big little : Nat) : String :=
  "0x" ++ hex2 big ++ hex2 little

namespace Emulator

/-- `Emulator::instruction`: fetch the big-endian word at `PC` and decode.
`none` models the Rust index panic when `PC + 1` falls outside memory. -/
def instruction (e : Emulator) : Option (Except Chip8Error Instruction) :=
  if e.programCounter + 1 < MEMSIZE then
    let big := e.memory e.programCounter
    let little := e.memory (e.programCounter + 1)
    match Instruction.fromOpcodeU8 big little with
    | some i => some (.ok i)
    | none => some (.error (.InvalidOpcode (opcodeHex big little)))
  else none

/-- The loop body of the `Draw` arm of `Emulator::execute` (`for i in
0..n.value()`), with the source's read/XOR-write/collision-accumulate order.
`mem`, `I`, `start` and `x` are loop-invariant; `k` counts the remaining
iterations and `i` is the current one.  `none` models the Rust index panics
(`memory[I + i]`, `graphics_buffer[i1]`, `graphics_buffer[i2]`). -/
def drawLoop (mem : Nat → Nat) (I start x : Nat) :
    Nat → Nat → (Nat → Nat) → Nat → Option ((Nat → Nat) × Nat)
  | 0, _, gb, vf => some (gb, vf)
  | k + 1, i, gb, vf =>
    if I + i < MEMSIZE then
      let sprite := mem (I + i)
      let sp1 := sprite >>> (x % 8)
      let sp2 := (sprite <<< (8 - x % 8)) % 256
      let i1 := start + i * 8
      let i2 := start + 1 + i * 8
      if i1 < GRAPHICS_BUFFER_SIZE then
        let byte1 := gb i1
        let gb1 := upd gb i1 (byte1 ^^^ sp1)
        if i2 < GRAPHICS_BUFFER_SIZE then
          let byte2 := gb1 i2
          let gb2 := upd gb1 i2 (byte2 ^^^ sp2)
          let vf' := vf ||| ((byte1 ^^^ sp1) ^^^ (byte1 ||| sp1))
            ||| ((byte2 ^^^ sp2) ^^^ (byte2 ||| sp2))
          drawLoop mem I start x k (i + 1) gb2 vf'
        else none
      else none
    else none

/-- `Emulator::execute`, arm for arm.  The Rust match covers only the arms
listed here; the remaining `Instruction` variants have no arm in the source
file, so they are mapped to `none` (no defined behaviour), as are the index
panics inside `Draw`.  `Add` uses release-mode wrapping arithmetic for the
`u8` `+=`. -/
def execute (e : Emulator) (instruction : Instruction) :
    Option (Except Chip8Error (Bool × Emulator)) :=
  match instruction with
  | .Exit => some (.ok (false, e))
  | .Clear => some (.ok (true, { e with graphicsBuffer := fun _ => 0 }))
  | .Return =>
    if e.stackPointer = 0 then some (.error .StackEmpty)
    else
      if e.stackPointer - 1 < STACK_SIZE then
        some (.ok (true, { e with
          stackPointer := e.stackPointer - 1,
          programCounter := e.stack (e.stackPointer - 1) }))
      else none
  | .Call addr =>
    if e.stackPointer ≥ STACK_SIZE then some (.error .StackFull)
    else
      some (.ok (true, { e with
        stack := upd e.stack e.stackPointer e.programCounter,
        stackPointer := e.stackPointer + 1,
        programCounter := addr.value }))
  | .Jump addr => some (.ok (true, { e with programCounter := addr.value }))
  | .SkipNotEqual register value =>
    if e.registries register.value ≠ value then
      some (.ok (true, { e with programCounter := e.programCounter + 2 }))
    else some (.ok (true, e))
  | .SetRegisterByte register value =>
    some (.ok (true, { e with registries := upd e.registries register.value value }))
  | .SetRegisterRegister regx regy =>
    some (.ok (true, { e with
      registries := upd e.registries regx.value (e.registries regy.value) }))
  | .Add register value =>
    some (.ok (true, { e with
      registries := upd e.registries register.value
        ((e.registries register.value + value) % 256) }))
  | .Or regx regy =>
    some (.ok (true, { e with
      registries := upd e.registries regx.value
        (e.registries regx.value ||| e.registries regy.value) }))
  | .Draw regx regy n =>
    let x := e.registries regx.value
    let y := e.registries regy.value
    let start := x / 8 + y * 8
    match drawLoop e.memory e.addressRegister start x n.value 0 e.graphicsBuffer 0 with
    | none => none
    | some (gb, vf) =>
      let e1 := { e with graphicsBuffer := gb }
      if vf > 0 then
        some (.ok (true, { e1 with registries := upd e1.registries 0x0F 1 }))
      else some (.ok (true, e1))
  | .SkipKeyPressed regx =>
    if e.keyStatus regx.value = .pressed then
      some (.ok (true, { e with programCounter := e.programCounter + 2 }))
    else some (.ok (true, e))
  | .SkipKeyNotPressed regx =>
    if e.keyStatus regx.value = .up then
      some (.ok (true, { e with programCounter := e.programCounter + 2 }))
    else some (.ok (true, e))
  | .WaitForKey regx => some (.ok (true, { e with waitForKey := some regx.value }))
  | .SetMemRegisterDefaultSprit regx =>
    let hexDigit := e.registries regx.value
    some (.ok (true, { e with
      addressRegister := DEFAULT_SPRITE_START_ADDR + hexDigit * 5 }))
  | .SetRegisterDelayTimer regx =>
    some (.ok (true, { e with registries := upd e.registries regx.value e.delayTimer }))
  | .SetDelayTimer regx =>
    some (.ok (true, { e with delayTimer := e.registries regx.value }))
  | .SetSoundTimer regx =>
    some (.ok (true, { e with soundTimer := e.registries regx.value }))
  | .Debug _ => some (.ok (true, e))
  | .Breakpoint => some (.ok (false, e))
  | _ => none

/-- `Emulator::decrement_timers`.  The two wall-clock comparisons
`last_*_decrement.elapsed() > TIME_BETWEEN_DECREMENT` enter as the inputs
`delayElapsed`/`soundElapsed`; `Some(Instant::now())` keeps the presence bit
set. -/
def decrementTimers (e : Emulator) (delayElapsed soundElapsed : Bool) : Emulator :=
  let e1 :=
    if e.delayTimer > 0 then
      if e.lastDelayDecrement then
        let e' :=
          if delayElapsed then
            { e with delayTimer := e.delayTimer - 1, lastDelayDecrement := true }
          else e
        if e'.delayTimer = 0 then { e' with lastDelayDecrement := false } else e'
      else { e with lastDelayDecrement := true }
    else e
  if e1.soundTimer > 0 then
    if e1.lastSoundDecrement then
      let e' :=
        if soundElapsed then
          { e1 with soundTimer := e1.soundTimer - 1, lastSoundDecrement := true }
        else e1
      if e'.soundTimer = 0 then { e' with lastSoundDecrement := false } else e'
    else { e1 with lastSoundDecrement := true }
  else e1

/-- `Emulator::tick`: wait-for-key scan, else fetch/advance/execute, then
timer decrements on the successful paths. -/
def tick (e : Emulator) (delayElapsed soundElapsed : Bool) :
    Option (Except Chip8Error (Bool × Emulator)) :=
  match e.waitForKey with
  | some regx =>
    let e1 :=
      match (List.range KEY_COUNT).find? (fun i => e.keyStatus i == .pressed) with
      | some i => { e with registries := upd e.registries regx i, waitForKey := none }
      | none => e
    some (.ok (true, e1.decrementTimers delayElapsed soundElapsed))
  | none =>
    match e.instruction with
    | none => none
    | some (.error err) => some (.error err)
    | some (.ok instr) =>
      let e1 := { e with programCounter := e.programCounter + 2 }
      match e1.execute instr with
      | none => none
      | some (.error err) => some (.error err)
      | some (.ok (ret, e2)) =>
        some (.ok (ret, e2.decrementTimers delayElapsed soundElapsed))

end Emulator


/-! ## assembly.rs — Assembly and binary emission -/

/-- `BinaryError` from `assembly.rs`. -/
inductive BinaryError where
  | MissingLabelAddress (label : String)
deriving DecidableEq, Repr

/-- `Source` from `assembly.rs`. -/
structure Source where
  file : String
  line : Nat
  column : Nat
deriving DecidableEq, Repr

/-- `ParsedInstruction` from `assembly.rs`. -/
structure ParsedInstruction where
  instruction : Instruction
  label : Option String
  source : Option Source
deriving DecidableEq, Repr

/-- `Assembly` from `assembly.rs`.  The label `HashMap<String, usize>` is an
association list whose lookup (`List.lookup`) returns the first match;
insertions cons onto the front, so a later insertion shadows an earlier one,
exactly the map's overwrite semantics. -/
structure Assembly where
  instructions : List ParsedInstruction
  labels : List (String × Nat)

/-- The label-resolution match inlined in the loop of `Assembly::binary`,
arm for arm (`Call`, `Jump`, `SetMemRegister`, `JumpOffset` with an attached
label get the resolved address `(START_ADDR + offset * 2) as u16`; every
other instruction, or one without a label, passes through unchanged). -/
def resolveLabel (labels : List (String × Nat)) (instr : ParsedInstruction) :
    Except BinaryError Instruction :=
  match instr.instruction with
  | .Call a =>
    match instr.label with
    | some label =>
      match labels.lookup label with
      | some offset => .ok (.Call (u12.fromU16 ((START_ADDR + offset * 2) % 65536)))
      | none => .error (.MissingLabelAddress label)
    | none => .ok (.Call a)
  | .Jump a =>
    match instr.label with
    | some label =>
      match labels.lookup label with
      | some offset => .ok (.Jump (u12.fromU16 ((START_ADDR + offset * 2) % 65536)))
      | none => .error (.MissingLabelAddress label)
    | none => .ok (.Jump a)
  | .SetMemRegister a =>
    match instr.label with
    | some label =>
      match labels.lookup label with
      | some offset => .ok (.SetMemRegister (u12.fromU16 ((START_ADDR + offset * 2) % 65536)))
      | none => .error (.MissingLabelAddress label)
    | none => .ok (.SetMemRegister a)
  | .JumpOffset a =>
    match instr.label with
    | some label =>
      match labels.lookup label with
      | some offset => .ok (.JumpOffset (u12.fromU16 ((START_ADDR + offset * 2) % 65536)))
      | none => .error (.MissingLabelAddress label)
    | none => .ok (.JumpOffset a)
  | i => .ok i

/-- The emission loop of `Assembly::binary`: resolve each instruction in
order and append the big-endian bytes of its opcode. -/
def binaryAux (labels : List (String × Nat)) :
    List ParsedInstruction → Except BinaryError (List Nat)
  | [] => .ok []
  | instr :: rest =>
    match resolveLabel labels instr with
    | .error e => .error e
    | .ok ins =>
      match binaryAux labels rest with
      | .error e => .error e
      | .ok buffer => .ok (((ins.opcode >>> 8) &&& 0xFF) :: (ins.opcode &&& 0xFF) :: buffer)

/-- `Assembly::binary`. -/
def Assembly.binary (a : Assembly) : Except BinaryError (List Nat) :=
  binaryAux a.labels a.instructions

/-! ## assembly/parser.rs — argument parsing and lowering -/

/-- `ArgumentError` from `parser.rs`.  `IntegerParse` drops the
`ParseIntError` payload; the second variant is `MissingRegistryPrefix` in the
source. -/
inductive ArgumentError where
  | IntegerParse
  | MissingRegistryLetter (arg : String)
  | UnexpectedArgument (arg : String)
  | MissingArgument
deriving DecidableEq, Repr

/-- `ParsingError` from `parser.rs` (lexer payload and token payloads
abstracted to strings). -/
inductive ParsingError where
  | Lexer
  | ArgumentError (instruction : String) (location : Nat × Nat) (err : ArgumentError)
  | UnknownInstruction (instr : String) (location : Nat × Nat)
  | UnexpectedToken (step : String) (token : String) (location : Nat × Nat)
  | MissingReferencedLabel (label : String)
  | Unknown (msg : String)
deriving DecidableEq, Repr

/-- Accumulate decimal digits, as Rust's unsigned `from_str` does. -/
def parseDigitsAux : List Char → Nat → Option Nat
  | [], acc => some acc
  | c :: cs, acc =>
    if c.isDigit then parseDigitsAux cs (acc * 10 + (c.toNat - 48)) else none

/-- Rust's `str::parse::<uN>()`: an optional `+` sign, then one or more
decimal digits, rejecting values above the type's maximum.  (Rust detects
overflow during accumulation; over `Nat` the final bound check accepts and
rejects exactly the same strings.) -/
def parseUnsigned (s : String) (max : Nat) : Except ArgumentError Nat :=
  let digits : List Char :=
    match s.toList with
    | '+' :: rest => rest
    | cs => cs
  match digits with
  | [] => .error .IntegerParse
  | cs =>
    match parseDigitsAux cs 0 with
    | some v => if v ≤ max then .ok v else .error .IntegerParse
    | none => .error .IntegerParse

/-- `RawInstr` from `parser.rs` (the `_comment` field is never read). -/
structure RawInstr where
  operation : String
  arg1 : Option String
  arg2 : Option String
  arg3 : Option String
  location : Nat × Nat
deriving DecidableEq, Repr

namespace RawInstr

/-- `RawInstr::parse_as_registry`: strip the `r`, parse as `u8`, mask to a
nibble with `u4::little`. -/
def parseAsRegistry (arg : Option String) : Except ArgumentError u4 :=
  match arg with
  | none => .error .MissingArgument
  | some value =>
    match value.toList with
    | 'r' :: rest =>
      match parseUnsigned (String.mk rest) 255 with
      | .ok index => .ok (u4.little index)
      | .error e => .error e
    | _ => .error (.MissingRegistryLetter value)

/-- `RawInstr::parse_as_nibble`. -/
def parseAsNibble (arg : Option String) : Except ArgumentError u4 :=
  match arg with
  | none => .error .MissingArgument
  | some value =>
    match parseUnsigned value 255 with
    | .ok index => .ok (u4.little index)
    | .error e => .error e

/-- `RawInstr::parse_as_value`. -/
def parseAsValue (arg : Option String) : Except ArgumentError Nat :=
  match arg with
  | none => .error .MissingArgument
  | some value => parseUnsigned value 255

/-- `RawInstr::parse_as_address`. -/
def parseAsAddress (arg : Option String) : Except ArgumentError u12 :=
  match arg with
  | none => .error .MissingArgument
  | some value =>
    match parseUnsigned value 65535 with
    | .ok num => .ok (u12.fromU16 num)
    | .error e => .error e

end RawInstr


namespace RawInstr

/-- `RawInstr::try_to_instruction`, arm for arm in source order (the Rust
match on `self.operation.as_str()` is an ordered string comparison, rendered
as an if-chain).  The final catch-all is `UnknownInstruction`. -/
def tryToInstruction (r : RawInstr) : Except ParsingError ParsedInstruction :=
  if r.operation = "exit" then
    match r.arg1 with
    | some v => .error (.ArgumentError "exit" r.location (.UnexpectedArgument v))
    | none =>
      match r.arg2 with
      | some v => .error (.ArgumentError "exit" r.location (.UnexpectedArgument v))
      | none => .ok ⟨.Exit, none, none⟩
  else if r.operation = "clear" then
    match r.arg1 with
    | some v => .error (.ArgumentError "clear" r.location (.UnexpectedArgument v))
    | none =>
      match r.arg2 with
      | some v => .error (.ArgumentError "clear" r.location (.UnexpectedArgument v))
      | none => .ok ⟨.Clear, none, none⟩
  else if r.operation = "ret" then
    match r.arg1 with
    | some v => .error (.ArgumentError "ret" r.location (.UnexpectedArgument v))
    | none =>
      match r.arg2 with
      | some v => .error (.ArgumentError "ret" r.location (.UnexpectedArgument v))
      | none => .ok ⟨.Return, none, none⟩
  else if r.operation = "call" then
    match r.arg1 with
    | none => .error (.ArgumentError "call" r.location .MissingArgument)
    | some s =>
      let (addr, label) :=
        match parseAsAddress r.arg1 with
        | .ok v => (v, (none : Option String))
        | .error _ => (u12.fromU16 0, some s)
      match r.arg2 with
      | some v => .error (.ArgumentError "call" r.location (.UnexpectedArgument v))
      | none => .ok ⟨.Call addr, label, none⟩
  else if r.operation = "jmp" then
    match r.arg1 with
    | none => .error (.ArgumentError "jmp" r.location .MissingArgument)
    | some s =>
      let (addr, label) :=
        match parseAsAddress r.arg1 with
        | .ok v => (v, (none : Option String))
        | .error _ => (u12.fromU16 0, some s)
      match r.arg2 with
      | some v => .error (.ArgumentError "jmp" r.location (.UnexpectedArgument v))
      | none => .ok ⟨.Jump addr, label, none⟩
  else if r.operation = "sne" then
    match parseAsRegistry r.arg1 with
    | .error e => .error (.ArgumentError "sne" r.location e)
    | .ok reg =>
      match parseAsValue r.arg2 with
      | .error e => .error (.ArgumentError "sne" r.location e)
      | .ok v =>
        match r.arg3 with
        | some v3 => .error (.ArgumentError "sne" r.location (.UnexpectedArgument v3))
        | none => .ok ⟨.SkipNotEqual reg v, none, none⟩
  else if r.operation = "ldb" then
    match parseAsRegistry r.arg1 with
    | .error e => .error (.ArgumentError "ldb" r.location e)
    | .ok reg =>
      match parseAsValue r.arg2 with
      | .error e => .error (.ArgumentError "ldb" r.location e)
      | .ok v =>
        match r.arg3 with
        | some v3 => .error (.ArgumentError "ldb" r.location (.UnexpectedArgument v3))
        | none => .ok ⟨.SetRegisterByte reg v, none, none⟩
  else if r.operation = "add" then
    match parseAsRegistry r.arg1 with
    | .error e => .error (.ArgumentError "add" r.location e)
    | .ok reg =>
      match parseAsValue r.arg2 with
      | .error e => .error (.ArgumentError "add" r.location e)
      | .ok v =>
        match r.arg3 with
        | some v3 => .error (.ArgumentError "add" r.location (.UnexpectedArgument v3))
        | none => .ok ⟨.Add reg v, none, none⟩
  else if r.operation = "or" then
    match parseAsRegistry r.arg1 with
    | .error e => .error (.ArgumentError "or" r.location e)
    | .ok regx =>
      match parseAsRegistry r.arg2 with
      | .error e => .error (.ArgumentError "or" r.location e)
      | .ok regy =>
        match r.arg3 with
        | some v3 => .error (.ArgumentError "or" r.location (.UnexpectedArgument v3))
        | none => .ok ⟨.Or regx regy, none, none⟩
  else if r.operation = "ldf" then
    match parseAsRegistry r.arg1 with
    | .error e => .error (.ArgumentError "ldf" r.location e)
    | .ok regx =>
      match r.arg2 with
      | some v => .error (.ArgumentError "ldf" r.location (.UnexpectedArgument v))
      | none =>
        match r.arg3 with
        | some v => .error (.ArgumentError "ldf" r.location (.UnexpectedArgument v))
        | none => .ok ⟨.SetMemRegisterDefaultSprit regx, none, none⟩
  else if r.operation = "draw" then
    match parseAsRegistry r.arg1 with
    | .error e => .error (.ArgumentError "draw" r.location e)
    | .ok regx =>
      match parseAsRegistry r.arg2 with
      | .error e => .error (.ArgumentError "draw" r.location e)
      | .ok regy =>
        match parseAsNibble r.arg3 with
        | .error e => .error (.ArgumentError "draw" r.location e)
        | .ok v => .ok ⟨.Draw regx regy v, none, none⟩
  else if r.operation = "ldd" then
    match parseAsRegistry r.arg1 with
    | .error e => .error (.ArgumentError "ldd" r.location e)
    | .ok regx =>
      match r.arg2 with
      | some v => .error (.ArgumentError "ldd" r.location (.UnexpectedArgument v))
      | none =>
        match r.arg3 with
        | some v => .error (.ArgumentError "ldd" r.location (.UnexpectedArgument v))
        | none => .ok ⟨.SetRegisterDelayTimer regx, none, none⟩
  else if r.operation = "delay" then
    match parseAsRegistry r.arg1 with
    | .error e => .error (.ArgumentError "delay" r.location e)
    | .ok regx =>
      match r.arg2 with
      | some v => .error (.ArgumentError "delay" r.location (.UnexpectedArgument v))
      | none =>
        match r.arg3 with
        | some v => .error (.ArgumentError "delay" r.location (.UnexpectedArgument v))
        | none => .ok ⟨.SetDelayTimer regx, none, none⟩
  else if r.operation = "skp" then
    match parseAsRegistry r.arg1 with
    | .error e => .error (.ArgumentError "skp" r.location e)
    | .ok regx =>
      match r.arg2 with
      | some v => .error (.ArgumentError "skp" r.location (.UnexpectedArgument v))
      | none =>
        match r.arg3 with
        | some v => .error (.ArgumentError "skp" r.location (.UnexpectedArgument v))
        | none => .ok ⟨.SkipKeyPressed regx, none, none⟩
  else if r.operation = "sknp" then
    match parseAsRegistry r.arg1 with
    | .error e => .error (.ArgumentError "sknp" r.location e)
    | .ok regx =>
      match r.arg2 with
      | some v => .error (.ArgumentError "sknp" r.location (.UnexpectedArgument v))
      | none =>
        match r.arg3 with
        | some v => .error (.ArgumentError "sknp" r.location (.UnexpectedArgument v))
        | none => .ok ⟨.SkipKeyNotPressed regx, none, none⟩
  else if r.operation = "input" then
    match parseAsRegistry r.arg1 with
    | .error e => .error (.ArgumentError "input" r.location e)
    | .ok regx =>
      match r.arg2 with
      | some v => .error (.ArgumentError "input" r.location (.UnexpectedArgument v))
      | none =>
        match r.arg3 with
        | some v => .error (.ArgumentError "input" r.location (.UnexpectedArgument v))
        | none => .ok ⟨.WaitForKey regx, none, none⟩
  else .error (.UnknownInstruction r.operation r.location)

end RawInstr

/-- `Line` from `parser.rs`. -/
inductive Line where
  | comment (text : String)
  | label (name : String)
  | instruction (raw : RawInstr)
deriving DecidableEq, Repr

/-- `Line::is_comment`. -/
def Line.isComment : Line → Bool
  | .comment _ => true
  | _ => false

/-- The loop of `convert_to_instructions`, with the source's `instr_cursor`
and its push/insert accumulators (`instructions` is accumulated reversed, as
a Rust `Vec::push` against our list cons). -/
def convertAux : List Line → Nat → List ParsedInstruction → List (String × Nat) →
    Except ParsingError (List ParsedInstruction × List (String × Nat))
  | [], _, instrs, labels => .ok (instrs.reverse, labels)
  | .instruction raw :: rest, instrCursor, instrs, labels =>
    match raw.tryToInstruction with
    | .error e => .error e
    | .ok pi => convertAux rest (instrCursor + 1) (pi :: instrs) labels
  | .label name :: rest, instrCursor, instrs, labels =>
    convertAux rest instrCursor instrs ((name, instrCursor) :: labels)
  | .comment _ :: _, _, _, _ => .error (.Unknown "comment after filter")

/-- `convert_to_instructions`: filter comments, then lower lines to
instructions while binding each label to the current instruction cursor. -/
def convertToInstructions (lines : List Line) :
    Except ParsingError (List ParsedInstruction × List (String × Nat)) :=
  convertAux (lines.filter (fun l => !l.isComment)) 0 [] []

/-- The final check in `Parser::parse`: every attached label must exist in
the label table, else `MissingReferencedLabel`. -/
def checkLabels (instrs : List ParsedInstruction) (labels : List (String × Nat)) :
    Except ParsingError Unit :=
  match instrs with
  | [] => .ok ()
  | i :: rest =>
    match i.label with
    | some label =>
      if (labels.lookup label).isSome then checkLabels rest labels
      else .error (.MissingReferencedLabel label)
    | none => checkLabels rest labels

/-- The tail of `Parser::parse` after line parsing: lower the parsed lines
and verify referenced labels. -/
def parseLines (lines : List Line) : Except ParsingError Assembly :=
  match convertToInstructions lines with
  | .error e => .error e
  | .ok (instructions, labels) =>
    match checkLabels instructions labels with
    | .error e => .error e
    | .ok _ => .ok ⟨instructions, labels⟩

/-! ## Scheduler loops — machine.rs `Machine::run` and emulator.rs
`Emulator::threaded_run`

Both loops interleave channel polling, wall-clock pacing and `tick` calls.
The outside world enters the model as three oracles consumed in program
order: `msgs` (one entry per channel poll: `none` for "no message or channel
error", `some b` for "a message was processed and `process_message` returned
abort flag `b`"), `timeouts` (one entry per `last_tick.elapsed() <
delay_per_timebox` comparison) and `script` (one entry per `tick()` call:
its result).  The functions return how many `tick()` calls the loop makes;
`fuel` bounds the number of loop iterations, since the Rust loops need not
terminate. -/

/-- The result of one `Emulator::tick` call, as the loops observe it. -/
inductive TickOutcome where
  | ok (cont : Bool)
  | err
deriving DecidableEq, Repr

/-- One channel poll: pop the message oracle and report whether the handled
message aborts the loop. -/
def pollMsgs : List (Option Bool) → Bool × List (Option Bool)
  | m :: ms => (m.getD false, ms)
  | [] => (false, [])

/-- The loop of `Machine::run` (machine.rs): note its tick arm
`match self.emulator.tick() { Ok(_) => {}, Err(_) => {} }` ignores the
result, so the count keeps growing past errors. -/
def machineRunTicks (tpb : Nat) :
    Nat → Nat → List (Option Bool) → List Bool → List TickOutcome → Nat
  | 0, _, _, _, _ => 0
  | fuel + 1, ticks, msgs, timeouts, script =>
    if ticks < tpb then
      if (pollMsgs msgs).1 then 0
      else
        match script with
        | _ :: rest => 1 + machineRunTicks tpb fuel (ticks + 1) (pollMsgs msgs).2 timeouts rest
        | [] => 0
    else
      match timeouts with
      | t :: ts =>
        if t then
          if (pollMsgs msgs).1 then 0
          else machineRunTicks tpb fuel 0 (pollMsgs msgs).2 ts script
        else machineRunTicks tpb fuel 0 msgs ts script
      | [] => 0

/-- The loop of `Emulator::threaded_run` (emulator.rs): `Ok(true)`
continues, `Ok(false)` and `Err(_)` break. -/
def threadedRunTicks (tpb : Nat) :
    Nat → Nat → List (Option Bool) → List Bool → List TickOutcome → Nat
  | 0, _, _, _, _ => 0
  | fuel + 1, ticks, msgs, timeouts, script =>
    if ticks < tpb then
      if (pollMsgs msgs).1 then 0
      else
        match script with
        | r :: rest =>
          match r with
          | .ok true => 1 + threadedRunTicks tpb fuel (ticks + 1) (pollMsgs msgs).2 timeouts rest
          | _ => 1
        | [] => 0
    else
      match timeouts with
      | t :: ts =>
        if t then
          if (pollMsgs msgs).1 then 0
          else threadedRunTicks tpb fuel 0 (pollMsgs msgs).2 ts script
        else threadedRunTicks tpb fuel 0 msgs ts script
      | [] => 0


/-! ## Claim C2 — encode ∘ decode -/

/-- C2 counterexample: the 16-bit word `0xF1FF` is accepted by
`from_opcode_u16` (as `Breakpoint`), but re-encoding gives `0xF0FF ≠ 0xF1FF`. -/
theorem C2_counterexample_0xF1FF :
    Instruction.fromOpcodeU16 0xF1FF = some .Breakpoint ∧
      Instruction.opcode .Breakpoint = 0xF0FF ∧ (0xF0FF : Nat) ≠ 0xF1FF :=
  ⟨by decide, rfl, by norm_num⟩

/-- C2 (amended): for every 16-bit word `w` accepted by
`Instruction.fromOpcodeU16`, re-encoding the decoded instruction yields
exactly `w`, except when the decoded instruction is `Breakpoint` (words
`0xFxFF`), which always re-encodes to `0xF0FF`. -/
theorem C2_encode_decode_roundtrip (w : Nat) (i : Instruction) (hw : w < 65536)
    (h : Instruction.fromOpcodeU16 w = some i) :
    i.opcode = if i = .Breakpoint then 0xF0FF else w := by
  unfold Instruction.fromOpcodeU16 at h
  have h1 := decode_char _ _ i (by rw [and_255]; omega) (by rw [and_255]; omega) h
  rw [h1.2]
  by_cases hbp : i = .Breakpoint
  · rw [if_pos hbp, if_pos hbp]
  · rw [if_neg hbp, if_neg hbp]
    rw [shiftRight_eight, and_255, and_255]
    omega

/-- Witness for C2 (amended) at `w = 0x1ABC`. -/
theorem C2_encode_decode_roundtrip_witness :
    Instruction.opcode (.Jump ⟨0xABC⟩) =
      if (Instruction.Jump ⟨0xABC⟩) = .Breakpoint then 0xF0FF else 0x1ABC :=
  C2_encode_decode_roundtrip 0x1ABC (.Jump ⟨0xABC⟩) (by norm_num) (by decide)

/-! ## Claim C10 — width invariants of u4/u12 and decoded operands -/

/-- C10: every `u4` constructor yields a value below 16, every `u12`
constructor a value below 4096 (for `from_bytes`, given a byte-sized lower
argument, as at both call sites), and every operand of a decoded instruction
is within its stated width (`wfInstr`), so register indices stay below the
register-file size. -/
theorem C10_width_invariants :
    (∀ v, (u4.decompose v).1.value < 16 ∧ (u4.decompose v).2.value < 16 ∧
      (u4.big v).value < 16 ∧ (u4.little v).value < 16 ∧ (u4.fromU8 v).value < 16) ∧
    (∀ w, (u12.decompose w).2.value < 4096 ∧ (u12.fromU16 w).value < 4096) ∧
    (∀ up lo, lo < 256 → (u12.fromBytes up lo).value < 4096) ∧
    (∀ upper lower i, upper < 256 → lower < 256 →
      Instruction.fromOpcodeU8 upper lower = some i → wfInstr i) := by
  refine ⟨?_, ?_, ?_, ?_⟩
  · intro v
    have hle : v &&& 0xF0 ≤ 0xF0 := Nat.and_le_right
    refine ⟨?_, ?_, ?_, ?_, ?_⟩ <;>
      simp only [u4.decompose, u4.big, u4.little, u4.fromU8, shiftRight_four, and_fifteen] <;>
      omega
  · intro w
    constructor <;> simp only [u12.decompose, u12.fromU16, and_4095] <;> omega
  · intro up lo hlo
    simp only [u12.fromBytes, and_fifteen]
    rw [shiftLeft_lor_eq_add _ _ 8 (by omega)]
    omega
  · intro upper lower i hu hl h
    exact (decode_char upper lower i hu hl h).1

/-- Witness for C10: the `from_bytes` and decoded-instruction conjuncts at
concrete inputs. -/
theorem C10_width_invariants_witness :
    (u12.fromBytes 0xEF 0xDB).value < 4096 ∧ wfInstr Instruction.Clear :=
  ⟨C10_width_invariants.2.2.1 0xEF 0xDB (by norm_num),
    C10_width_invariants.2.2.2 0x00 0xE0 .Clear (by norm_num) (by norm_num) (by decide)⟩

/-! ## Claim C9 — scheduler loop termination on tick failure -/

/-- C9 counterexample: in `Machine::run` the tick arm ignores the result
(`Ok(_) => {}, Err(_) => {}`), so after a tick that returns an error at
script index 0 the loop dispatches another tick: 2 ticks run where the claim
allows at most 1. -/
theorem C9_counterexample_machine_run :
    machineRunTicks 2 2 0 [] [] [.err, .ok true] = 2 ∧ (1 : Nat) < 2 :=
  ⟨rfl, by norm_num⟩

/-- C9 (amended): in `Emulator::threaded_run` the loop stops on the
iteration whose tick returns an error or `Ok(false)`: if the `k`-th scripted
tick outcome is not `Ok(true)`, at most `k + 1` ticks are ever dispatched,
whatever the pacing parameters, message traffic and fuel. -/
theorem C9_threaded_run_stops_on_bad_tick (tpb fuel ticks : Nat)
    (msgs : List (Option Bool)) (timeouts : List Bool) (script : List TickOutcome)
    (k : Nat) (r : TickOutcome) (hk : script.get? k = some r) (hr : r ≠ .ok true) :
    threadedRunTicks tpb fuel ticks msgs timeouts script ≤ k + 1 := by
  induction fuel generalizing ticks msgs timeouts script k with
  | zero => simp [threadedRunTicks]
  | succ n ih =>
    unfold threadedRunTicks
    by_cases hcmp : ticks < tpb
    · rw [if_pos hcmp]
      by_cases ha : (pollMsgs msgs).1 = true
      · simp [ha]
      · simp only [Bool.not_eq_true] at ha
        rw [ha]
        simp only [Bool.false_eq_true, if_false]
        cases script with
        | nil => simp at hk
        | cons r0 rest =>
          cases r0 with
          | ok b =>
            cases b with
            | true =>
              cases k with
              | zero => simp at hk; exact absurd hk.symm hr
              | succ k' =>
                simp only [List.get?] at hk
                have := ih (ticks + 1) (pollMsgs msgs).2 timeouts rest k' hk
                simp
                omega
            | false => simp
          | err => simp
    · rw [if_neg hcmp]
      cases timeouts with
      | nil => simp
      | cons t ts =>
        by_cases ht : t = true
        · subst ht
          simp only [if_true]
          by_cases ha : (pollMsgs msgs).1 = true
          · simp [ha]
          · simp only [Bool.not_eq_true] at ha
            rw [ha]
            simp only [Bool.false_eq_true, if_false]
            exact ih 0 (pollMsgs msgs).2 ts script k hk
        · simp only [Bool.not_eq_true] at ht
          subst ht
          simp only [Bool.false_eq_true, if_false]
          exact ih 0 msgs ts script k hk

/-- Witness for C9 (amended): a script whose first tick errors leads to at
most one dispatched tick. -/
theorem C9_threaded_run_stops_witness :
    threadedRunTicks 4 10 0 [] [] [.err, .ok true] ≤ 0 + 1 :=
  C9_threaded_run_stops_on_bad_tick 4 10 0 [] [] [.err, .ok true] 0 .err rfl (by decide)

/-! ## Claim C4 — Draw bounds -/

/-- An all-zero emulator state (the post-`reset` state but with zeroed
memory and no font, used as a base for concrete runs). -/
def zeroEmulator : Emulator where
  memory := fun _ => 0
  registries := fun _ => 0
  programCounter := START_ADDR
  stackPointer := 0
  addressRegister := 0
  delayTimer := 0
  soundTimer := 0
  stack := fun _ => 0
  graphicsBuffer := fun _ => 0
  lastDelayDecrement := false
  lastSoundDecrement := false
  keyStatus := fun _ => .up
  waitForKey := none

/-- C4: the `Draw` arm performs no bounds check or clipping: with
`V[0] = 0`, `V[1] = 32`, `n = 1`, `I = 0` the first sprite row targets
framebuffer index `start = 0/8 + 32*8 = 256`, outside the 256-byte
framebuffer, and the Rust indexing `graphics_buffer[i1]` panics (modelled as
`none`) instead of clipping the row. -/
theorem C4_draw_row32_out_of_bounds :
    Emulator.execute { zeroEmulator with registries := upd (fun _ => 0) 1 32 }
      (.Draw ⟨0⟩ ⟨1⟩ ⟨1⟩) = none := by
  rfl


/-! ## Claims C5 and C6 — stack discipline and execute/tick results -/

set_option maxHeartbeats 2000000 in
/-- `decrement_timers` touches only the timer fields. -/
theorem decrementTimers_state (e : Emulator) (d s : Bool) :
    (e.decrementTimers d s).programCounter = e.programCounter ∧
    (e.decrementTimers d s).stackPointer = e.stackPointer ∧
    (e.decrementTimers d s).stack = e.stack ∧
    (e.decrementTimers d s).registries = e.registries ∧
    (e.decrementTimers d s).graphicsBuffer = e.graphicsBuffer ∧
    (e.decrementTimers d s).waitForKey = e.waitForKey := by
  unfold Emulator.decrementTimers
  dsimp only
  refine ⟨?_, ?_, ?_, ?_, ?_, ?_⟩ <;> (repeat' split) <;> rfl

/-- C5: `Call` pushes the already-advanced program counter.  Conjunctions:
(1) a tick whose fetched word decodes to `Call nnn` with `SP < 32` pushes
`PC + 2` (the address of the following instruction), increments `SP` and
jumps to `nnn`; (2) `Call` with `SP = 32` is `StackFull`; (3) `Return` with
`SP = 0` is `StackEmpty`; (4) `SP ≤ 32` is preserved by every successfully
executed instruction. -/
theorem C5_call_return_stack_discipline :
    (∀ (e : Emulator) (dE sE : Bool) (addr : u12),
      e.waitForKey = none →
      e.programCounter + 1 < MEMSIZE →
      Instruction.fromOpcodeU8 (e.memory e.programCounter) (e.memory (e.programCounter + 1))
        = some (.Call addr) →
      e.stackPointer < 32 →
      ∃ e', e.tick dE sE = some (.ok (true, e')) ∧
        e'.stack e.stackPointer = e.programCounter + 2 ∧
        e'.stackPointer = e.stackPointer + 1 ∧
        e'.programCounter = addr.value) ∧
    (∀ (e : Emulator) (addr : u12), e.stackPointer = 32 →
      e.execute (.Call addr) = some (.error .StackFull)) ∧
    (∀ e : Emulator, e.stackPointer = 0 →
      e.execute .Return = some (.error .StackEmpty)) ∧
    (∀ (e : Emulator) (i : Instruction) (r : Bool) (e' : Emulator),
      e.stackPointer ≤ 32 → e.execute i = some (.ok (r, e')) →
      e'.stackPointer ≤ 32) := by
  refine ⟨?_, ?_, ?_, ?_⟩
  · intro e dE sE addr hwk hpc hdec hsp
    have hins : e.instruction = some (.ok (.Call addr)) := by
      unfold Emulator.instruction
      rw [if_pos hpc]
      dsimp only
      rw [hdec]
    have hexec : ∀ e2 : Emulator, e2.stackPointer < 32 →
        e2.execute (.Call addr) = some (.ok (true, { e2 with
          stack := upd e2.stack e2.stackPointer e2.programCounter,
          stackPointer := e2.stackPointer + 1,
          programCounter := addr.value })) := by
      intro e2 h2
      simp only [Emulator.execute]
      rw [if_neg (by simp only [STACK_SIZE]; omega)]
    refine ⟨Emulator.decrementTimers { e with
        stack := upd e.stack e.stackPointer (e.programCounter + 2),
        stackPointer := e.stackPointer + 1,
        programCounter := addr.value,
        waitForKey := none } dE sE, ?_, ?_, ?_, ?_⟩
    · simp only [Emulator.tick, hwk, hins]
      rw [hexec _ (by simpa using hsp)]
    · rw [(decrementTimers_state _ _ _).2.2.1]
      simp [upd]
    · rw [(decrementTimers_state _ _ _).2.1]
    · rw [(decrementTimers_state _ _ _).1]
  · intro e addr hsp
    simp only [Emulator.execute]
    rw [if_pos (by simp only [STACK_SIZE]; omega)]
  · intro e hsp
    simp only [Emulator.execute]
    rw [if_pos hsp]
  · intro e i r e' hsp hex
    cases i
    case Call addr =>
      simp only [Emulator.execute] at hex
      split_ifs at hex with h1
      · simp at hex
      · simp only [Option.some.injEq, Except.ok.injEq, Prod.mk.injEq] at hex
        obtain ⟨-, he⟩ := hex
        subst he
        simp only [STACK_SIZE] at h1
        simp
        omega
    case Return =>
      simp only [Emulator.execute] at hex
      split_ifs at hex with h1 h2
      · simp at hex
      · simp only [Option.some.injEq, Except.ok.injEq, Prod.mk.injEq] at hex
        obtain ⟨-, he⟩ := hex
        subst he
        simp
        omega
    case Draw x y n =>
      simp only [Emulator.execute] at hex
      rcases hdl : Emulator.drawLoop e.memory e.addressRegister
          (e.registries x.value / 8 + e.registries y.value * 8) (e.registries x.value)
          n.value 0 e.graphicsBuffer 0 with _ | ⟨gb, vf⟩ <;> rw [hdl] at hex
      · simp at hex
      · simp only [] at hex
        split_ifs at hex <;>
          (simp only [Option.some.injEq, Except.ok.injEq, Prod.mk.injEq] at hex
           obtain ⟨-, he⟩ := hex
           subst he
           simpa using hsp)
    all_goals first
      | exact Option.noConfusion hex
      | (simp only [Emulator.execute, Option.some.injEq, Except.ok.injEq, Prod.mk.injEq] at hex
         obtain ⟨-, he⟩ := hex
         subst he
         simpa using hsp)
      | (simp only [Emulator.execute] at hex
         split_ifs at hex <;>
           (simp only [Option.some.injEq, Except.ok.injEq, Prod.mk.injEq] at hex
            obtain ⟨-, he⟩ := hex
            subst he
            simpa using hsp))

/-- Witness for C5 at a concrete state: memory holds `0x2300` (`Call 0x300`)
at `PC = 0x200`, `SP = 0`. -/
def c5State : Emulator :=
  { zeroEmulator with
      memory := fun a => if a = 0x200 then 0x23 else 0 }

theorem C5_call_return_stack_discipline_witness :
    (∃ e', Emulator.tick c5State false false = some (.ok (true, e')) ∧
      e'.stack c5State.stackPointer = c5State.programCounter + 2 ∧
      e'.stackPointer = c5State.stackPointer + 1 ∧
      e'.programCounter = (u12.fromBytes 0x23 0x00).value) ∧
    Emulator.execute { c5State with stackPointer := 32 } (.Call ⟨0x300⟩)
      = some (.error .StackFull) ∧
    Emulator.execute c5State .Return = some (.error .StackEmpty) :=
  ⟨C5_call_return_stack_discipline.1 c5State false false (u12.fromBytes 0x23 0x00)
      rfl (by decide) (by decide) (by decide),
    C5_call_return_stack_discipline.2.1 _ ⟨0x300⟩ rfl,
    C5_call_return_stack_discipline.2.2.1 c5State rfl⟩

/-- C6: `execute` returns `Ok(false)` exactly for `Exit` and `Breakpoint`
(and leaves the state unchanged there); a tick whose fetched word decodes to
no instruction is an `InvalidOpcode` error; stack overflow and underflow
yield `StackFull`/`StackEmpty`. -/
theorem C6_execute_result_discipline :
    (∀ e : Emulator, e.execute .Exit = some (.ok (false, e)) ∧
      e.execute .Breakpoint = some (.ok (false, e))) ∧
    (∀ (e : Emulator) (i : Instruction) (e' : Emulator),
      e.execute i = some (.ok (false, e')) → i = .Exit ∨ i = .Breakpoint) ∧
    (∀ (e : Emulator) (dE sE : Bool),
      e.waitForKey = none →
      e.programCounter + 1 < MEMSIZE →
      Instruction.fromOpcodeU8 (e.memory e.programCounter)
        (e.memory (e.programCounter + 1)) = none →
      e.tick dE sE = some (.error (.InvalidOpcode
        (opcodeHex (e.memory e.programCounter) (e.memory (e.programCounter + 1)))))) ∧
    (∀ (e : Emulator) (addr : u12), e.stackPointer ≥ 32 →
      e.execute (.Call addr) = some (.error .StackFull)) ∧
    (∀ e : Emulator, e.stackPointer = 0 →
      e.execute .Return = some (.error .StackEmpty)) := by
  refine ⟨fun e => ⟨rfl, rfl⟩, ?_, ?_, ?_, ?_⟩
  · intro e i e' hex
    cases i
    case Exit => exact Or.inl rfl
    case Breakpoint => exact Or.inr rfl
    case Draw x y n =>
      exfalso
      simp only [Emulator.execute] at hex
      rcases hdl : Emulator.drawLoop e.memory e.addressRegister
          (e.registries x.value / 8 + e.registries y.value * 8) (e.registries x.value)
          n.value 0 e.graphicsBuffer 0 with _ | ⟨gb, vf⟩ <;> rw [hdl] at hex
      · simp at hex
      · simp only [] at hex
        split_ifs at hex <;> simp at hex
    all_goals exfalso
    all_goals simp only [Emulator.execute] at hex
    all_goals first
      | (split_ifs at hex <;> simp at hex)
      | simp at hex
  · intro e dE sE hwk hpc hdec
    have hins : e.instruction = some (.error (.InvalidOpcode
        (opcodeHex (e.memory e.programCounter) (e.memory (e.programCounter + 1))))) := by
      unfold Emulator.instruction
      rw [if_pos hpc]
      dsimp only
      rw [hdec]
    simp only [Emulator.tick, hwk, hins]
  · intro e addr hsp
    simp only [Emulator.execute]
    rw [if_pos (by simp only [STACK_SIZE]; omega)]
  · intro e hsp
    simp only [Emulator.execute]
    rw [if_pos hsp]

/-- Witness for C6 at concrete states: the all-zero word `0x0000` decodes
to nothing, so a tick fetches it and fails with `InvalidOpcode "0x0000"`;
`Exit` returns `Ok(false)`. -/
theorem C6_execute_result_discipline_witness :
    Emulator.execute zeroEmulator .Exit = some (.ok (false, zeroEmulator)) ∧
    Emulator.tick zeroEmulator false false = some (.error (.InvalidOpcode
      (opcodeHex (zeroEmulator.memory zeroEmulator.programCounter)
        (zeroEmulator.memory (zeroEmulator.programCounter + 1))))) :=
  ⟨(C6_execute_result_discipline.1 zeroEmulator).1,
    C6_execute_result_discipline.2.2.1 zeroEmulator false false rfl (by decide) (by decide)⟩


/-- The sixteen mnemonics with an arm in `RawInstr::try_to_instruction`. -/
def supportedMnemonics : List String :=
  ["exit", "clear", "ret", "call", "jmp", "sne", "ldb", "add", "or", "ldf",
   "draw", "ldd", "delay", "skp", "sknp", "input"]

/-- C8 (amended): the operation-name table covers exactly the sixteen
mnemonics of `supportedMnemonics`, one-to-one onto their instruction
variants when the arguments are well-typed; every other mnemonic (in
particular se, sre, srne, ldr, and, xor, addc, subc, shr, subnc, shl, ldi,
jmpr, rand, sound, addi, sbcd, write, read, debug, break) is an
`UnknownInstruction` error; and the label-reference fallback for a first
argument that fails integer parsing exists for `jmp` and `call` only. -/
theorem C8_mnemonic_table_lowering :
    (∀ r : RawInstr, r.operation ∉ supportedMnemonics →
      r.tryToInstruction = .error (.UnknownInstruction r.operation r.location)) ∧
    (∀ (loc : Nat × Nat) (a3 : Option String),
      RawInstr.tryToInstruction ⟨"exit", none, none, a3, loc⟩ = .ok ⟨.Exit, none, none⟩) ∧
    (∀ (loc : Nat × Nat) (a3 : Option String),
      RawInstr.tryToInstruction ⟨"clear", none, none, a3, loc⟩ = .ok ⟨.Clear, none, none⟩) ∧
    (∀ (loc : Nat × Nat) (a3 : Option String),
      RawInstr.tryToInstruction ⟨"ret", none, none, a3, loc⟩ = .ok ⟨.Return, none, none⟩) ∧
    (∀ (loc : Nat × Nat) (s : String) (a3 : Option String) (a : u12),
      RawInstr.parseAsAddress (some s) = .ok a →
      RawInstr.tryToInstruction ⟨"call", some s, none, a3, loc⟩ = .ok ⟨.Call a, none, none⟩) ∧
    (∀ (loc : Nat × Nat) (s : String) (a3 : Option String) (err : ArgumentError),
      RawInstr.parseAsAddress (some s) = .error err →
      RawInstr.tryToInstruction ⟨"call", some s, none, a3, loc⟩
        = .ok ⟨.Call (u12.fromU16 0), some s, none⟩) ∧
    (∀ (loc : Nat × Nat) (s : String) (a3 : Option String) (a : u12),
      RawInstr.parseAsAddress (some s) = .ok a →
      RawInstr.tryToInstruction ⟨"jmp", some s, none, a3, loc⟩ = .ok ⟨.Jump a, none, none⟩) ∧
    (∀ (loc : Nat × Nat) (s : String) (a3 : Option String) (err : ArgumentError),
      RawInstr.parseAsAddress (some s) = .error err →
      RawInstr.tryToInstruction ⟨"jmp", some s, none, a3, loc⟩
        = .ok ⟨.Jump (u12.fromU16 0), some s, none⟩) ∧
    (∀ (loc : Nat × Nat) (a1 a2 : Option String) (reg : u4) (v : Nat),
      RawInstr.parseAsRegistry a1 = .ok reg → RawInstr.parseAsValue a2 = .ok v →
      RawInstr.tryToInstruction ⟨"sne", a1, a2, none, loc⟩
        = .ok ⟨.SkipNotEqual reg v, none, none⟩) ∧
    (∀ (loc : Nat × Nat) (a1 a2 : Option String) (reg : u4) (v : Nat),
      RawInstr.parseAsRegistry a1 = .ok reg → RawInstr.parseAsValue a2 = .ok v →
      RawInstr.tryToInstruction ⟨"ldb", a1, a2, none, loc⟩
        = .ok ⟨.SetRegisterByte reg v, none, none⟩) ∧
    (∀ (loc : Nat × Nat) (a1 a2 : Option String) (reg : u4) (v : Nat),
      RawInstr.parseAsRegistry a1 = .ok reg → RawInstr.parseAsValue a2 = .ok v →
      RawInstr.tryToInstruction ⟨"add", a1, a2, none, loc⟩
        = .ok ⟨.Add reg v, none, none⟩) ∧
    (∀ (loc : Nat × Nat) (a1 a2 : Option String) (rx ry : u4),
      RawInstr.parseAsRegistry a1 = .ok rx → RawInstr.parseAsRegistry a2 = .ok ry →
      RawInstr.tryToInstruction ⟨"or", a1, a2, none, loc⟩ = .ok ⟨.Or rx ry, none, none⟩) ∧
    (∀ (loc : Nat × Nat) (a1 a2 a3 : Option String) (rx ry n : u4),
      RawInstr.parseAsRegistry a1 = .ok rx → RawInstr.parseAsRegistry a2 = .ok ry →
      RawInstr.parseAsNibble a3 = .ok n →
      RawInstr.tryToInstruction ⟨"draw", a1, a2, a3, loc⟩ = .ok ⟨.Draw rx ry n, none, none⟩) ∧
    (∀ (loc : Nat × Nat) (a1 : Option String) (reg : u4),
      RawInstr.parseAsRegistry a1 = .ok reg →
      RawInstr.tryToInstruction ⟨"ldf", a1, none, none, loc⟩
        = .ok ⟨.SetMemRegisterDefaultSprit reg, none, none⟩) ∧
    (∀ (loc : Nat × Nat) (a1 : Option String) (reg : u4),
      RawInstr.parseAsRegistry a1 = .ok reg →
      RawInstr.tryToInstruction ⟨"ldd", a1, none, none, loc⟩
        = .ok ⟨.SetRegisterDelayTimer reg, none, none⟩) ∧
    (∀ (loc : Nat × Nat) (a1 : Option String) (reg : u4),
      RawInstr.parseAsRegistry a1 = .ok reg →
      RawInstr.tryToInstruction ⟨"delay", a1, none, none, loc⟩
        = .ok ⟨.SetDelayTimer reg, none, none⟩) ∧
    (∀ (loc : Nat × Nat) (a1 : Option String) (reg : u4),
      RawInstr.parseAsRegistry a1 = .ok reg →
      RawInstr.tryToInstruction ⟨"skp", a1, none, none, loc⟩
        = .ok ⟨.SkipKeyPressed reg, none, none⟩) ∧
    (∀ (loc : Nat × Nat) (a1 : Option String) (reg : u4),
      RawInstr.parseAsRegistry a1 = .ok reg →
      RawInstr.tryToInstruction ⟨"sknp", a1, none, none, loc⟩
        = .ok ⟨.SkipKeyNotPressed reg, none, none⟩) ∧
    (∀ (loc : Nat × Nat) (a1 : Option String) (reg : u4),
      RawInstr.parseAsRegistry a1 = .ok reg →
      RawInstr.tryToInstruction ⟨"input", a1, none, none, loc⟩
        = .ok ⟨.WaitForKey reg, none, none⟩) := by
  refine ⟨?_, ?_, ?_, ?_, ?_, ?_, ?_, ?_, ?_, ?_, ?_, ?_, ?_, ?_, ?_, ?_, ?_, ?_, ?_⟩
  · intro r h
    simp only [supportedMnemonics, List.mem_cons, List.not_mem_nil, or_false] at h
    push_neg at h
    obtain ⟨h1, h2, h3, h4, h5, h6, h7, h8, h9, h10, h11, h12, h13, h14, h15, h16⟩ := h
    unfold RawInstr.tryToInstruction
    rw [if_neg h1, if_neg h2, if_neg h3, if_neg h4, if_neg h5, if_neg h6, if_neg h7, if_neg h8, if_neg h9, if_neg h10, if_neg h11, if_neg h12, if_neg h13, if_neg h14, if_neg h15, if_neg h16]
  · intro loc a3
    unfold RawInstr.tryToInstruction
    rw [if_pos (show "exit" = "exit" from rfl)]
  · intro loc a3
    unfold RawInstr.tryToInstruction
    rw [if_neg (show ¬("clear" = "exit") by decide), if_pos (show "clear" = "clear" from rfl)]
  · intro loc a3
    unfold RawInstr.tryToInstruction
    rw [if_neg (show ¬("ret" = "exit") by decide), if_neg (show ¬("ret" = "clear") by decide), if_pos (show "ret" = "ret" from rfl)]
  · intro loc s a3 a hp
    unfold RawInstr.tryToInstruction
    rw [if_neg (show ¬("call" = "exit") by decide), if_neg (show ¬("call" = "clear") by decide), if_neg (show ¬("call" = "ret") by decide), if_pos (show "call" = "call" from rfl)]
    dsimp only
    rw [hp]
  · intro loc s a3 err hp
    unfold RawInstr.tryToInstruction
    rw [if_neg (show ¬("call" = "exit") by decide), if_neg (show ¬("call" = "clear") by decide), if_neg (show ¬("call" = "ret") by decide), if_pos (show "call" = "call" from rfl)]
    dsimp only
    rw [hp]
  · intro loc s a3 a hp
    unfold RawInstr.tryToInstruction
    rw [if_neg (show ¬("jmp" = "exit") by decide), if_neg (show ¬("jmp" = "clear") by decide), if_neg (show ¬("jmp" = "ret") by decide), if_neg (show ¬("jmp" = "call") by decide), if_pos (show "jmp" = "jmp" from rfl)]
    dsimp only
    rw [hp]
  · intro loc s a3 err hp
    unfold RawInstr.tryToInstruction
    rw [if_neg (show ¬("jmp" = "exit") by decide), if_neg (show ¬("jmp" = "clear") by decide), if_neg (show ¬("jmp" = "ret") by decide), if_neg (show ¬("jmp" = "call") by decide), if_pos (show "jmp" = "jmp" from rfl)]
    dsimp only
    rw [hp]
  · intro loc a1 a2 reg v h1 h2
    unfold RawInstr.tryToInstruction
    rw [if_neg (show ¬("sne" = "exit") by decide), if_neg (show ¬("sne" = "clear") by decide), if_neg (show ¬("sne" = "ret") by decide), if_neg (show ¬("sne" = "call") by decide), if_neg (show ¬("sne" = "jmp") by decide), if_pos (show "sne" = "sne" from rfl)]
    dsimp only
    rw [h1, h2]
  · intro loc a1 a2 reg v h1 h2
    unfold RawInstr.tryToInstruction
    rw [if_neg (show ¬("ldb" = "exit") by decide), if_neg (show ¬("ldb" = "clear") by decide), if_neg (show ¬("ldb" = "ret") by decide), if_neg (show ¬("ldb" = "call") by decide), if_neg (show ¬("ldb" = "jmp") by decide), if_neg (show ¬("ldb" = "sne") by decide), if_pos (show "ldb" = "ldb" from rfl)]
    dsimp only
    rw [h1, h2]
  · intro loc a1 a2 reg v h1 h2
    unfold RawInstr.tryToInstruction
    rw [if_neg (show ¬("add" = "exit") by decide), if_neg (show ¬("add" = "clear") by decide), if_neg (show ¬("add" = "ret") by decide), if_neg (show ¬("add" = "call") by decide), if_neg (show ¬("add" = "jmp") by decide), if_neg (show ¬("add" = "sne") by decide), if_neg (show ¬("add" = "ldb") by decide), if_pos (show "add" = "add" from rfl)]
    dsimp only
    rw [h1, h2]
  · intro loc a1 a2 rx ry h1 h2
    unfold RawInstr.tryToInstruction
    rw [if_neg (show ¬("or" = "exit") by decide), if_neg (show ¬("or" = "clear") by decide), if_neg (show ¬("or" = "ret") by decide), if_neg (show ¬("or" = "call") by decide), if_neg (show ¬("or" = "jmp") by decide), if_neg (show ¬("or" = "sne") by decide), if_neg (show ¬("or" = "ldb") by decide), if_neg (show ¬("or" = "add") by decide), if_pos (show "or" = "or" from rfl)]
    dsimp only
    rw [h1, h2]
  · intro loc a1 a2 a3 rx ry n h1 h2 h3
    unfold RawInstr.tryToInstruction
    rw [if_neg (show ¬("draw" = "exit") by decide), if_neg (show ¬("draw" = "clear") by decide), if_neg (show ¬("draw" = "ret") by decide), if_neg (show ¬("draw" = "call") by decide), if_neg (show ¬("draw" = "jmp") by decide), if_neg (show ¬("draw" = "sne") by decide), if_neg (show ¬("draw" = "ldb") by decide), if_neg (show ¬("draw" = "add") by decide), if_neg (show ¬("draw" = "or") by decide), if_neg (show ¬("draw" = "ldf") by decide), if_pos (show "draw" = "draw" from rfl)]
    dsimp only
    rw [h1, h2, h3]
  · intro loc a1 reg h1
    unfold RawInstr.tryToInstruction
    rw [if_neg (show ¬("ldf" = "exit") by decide), if_neg (show ¬("ldf" = "clear") by decide), if_neg (show ¬("ldf" = "ret") by decide), if_neg (show ¬("ldf" = "call") by decide), if_neg (show ¬("ldf" = "jmp") by decide), if_neg (show ¬("ldf" = "sne") by decide), if_neg (show ¬("ldf" = "ldb") by decide), if_neg (show ¬("ldf" = "add") by decide), if_neg (show ¬("ldf" = "or") by decide), if_pos (show "ldf" = "ldf" from rfl)]
    dsimp only
    rw [h1]
  · intro loc a1 reg h1
    unfold RawInstr.tryToInstruction
    rw [if_neg (show ¬("ldd" = "exit") by decide), if_neg (show ¬("ldd" = "clear") by decide), if_neg (show ¬("ldd" = "ret") by decide), if_neg (show ¬("ldd" = "call") by decide), if_neg (show ¬("ldd" = "jmp") by decide), if_neg (show ¬("ldd" = "sne") by decide), if_neg (show ¬("ldd" = "ldb") by decide), if_neg (show ¬("ldd" = "add") by decide), if_neg (show ¬("ldd" = "or") by decide), if_neg (show ¬("ldd" = "ldf") by decide), if_neg (show ¬("ldd" = "draw") by decide), if_pos (show "ldd" = "ldd" from rfl)]
    dsimp only
    rw [h1]
  · intro loc a1 reg h1
    unfold RawInstr.tryToInstruction
    rw [if_neg (show ¬("delay" = "exit") by decide), if_neg (show ¬("delay" = "clear") by decide), if_neg (show ¬("delay" = "ret") by decide), if_neg (show ¬("delay" = "call") by decide), if_neg (show ¬("delay" = "jmp") by decide), if_neg (show ¬("delay" = "sne") by decide), if_neg (show ¬("delay" = "ldb") by decide), if_neg (show ¬("delay" = "add") by decide), if_neg (show ¬("delay" = "or") by decide), if_neg (show ¬("delay" = "ldf") by decide), if_neg (show ¬("delay" = "draw") by decide), if_neg (show ¬("delay" = "ldd") by decide), if_pos (show "delay" = "delay" from rfl)]
    dsimp only
    rw [h1]
  · intro loc a1 reg h1
    unfold RawInstr.tryToInstruction
    rw [if_neg (show ¬("skp" = "exit") by decide), if_neg (show ¬("skp" = "clear") by decide), if_neg (show ¬("skp" = "ret") by decide), if_neg (show ¬("skp" = "call") by decide), if_neg (show ¬("skp" = "jmp") by decide), if_neg (show ¬("skp" = "sne") by decide), if_neg (show ¬("skp" = "ldb") by decide), if_neg (show ¬("skp" = "add") by decide), if_neg (show ¬("skp" = "or") by decide), if_neg (show ¬("skp" = "ldf") by decide), if_neg (show ¬("skp" = "draw") by decide), if_neg (show ¬("skp" = "ldd") by decide), if_neg (show ¬("skp" = "delay") by decide), if_pos (show "skp" = "skp" from rfl)]
    dsimp only
    rw [h1]
  · intro loc a1 reg h1
    unfold RawInstr.tryToInstruction
    rw [if_neg (show ¬("sknp" = "exit") by decide), if_neg (show ¬("sknp" = "clear") by decide), if_neg (show ¬("sknp" = "ret") by decide), if_neg (show ¬("sknp" = "call") by decide), if_neg (show ¬("sknp" = "jmp") by decide), if_neg (show ¬("sknp" = "sne") by decide), if_neg (show ¬("sknp" = "ldb") by decide), if_neg (show ¬("sknp" = "add") by decide), if_neg (show ¬("sknp" = "or") by decide), if_neg (show ¬("sknp" = "ldf") by decide), if_neg (show ¬("sknp" = "draw") by decide), if_neg (show ¬("sknp" = "ldd") by decide), if_neg (show ¬("sknp" = "delay") by decide), if_neg (show ¬("sknp" = "skp") by decide), if_pos (show "sknp" = "sknp" from rfl)]
    dsimp only
    rw [h1]
  · intro loc a1 reg h1
    unfold RawInstr.tryToInstruction
    rw [if_neg (show ¬("input" = "exit") by decide), if_neg (show ¬("input" = "clear") by decide), if_neg (show ¬("input" = "ret") by decide), if_neg (show ¬("input" = "call") by decide), if_neg (show ¬("input" = "jmp") by decide), if_neg (show ¬("input" = "sne") by decide), if_neg (show ¬("input" = "ldb") by decide), if_neg (show ¬("input" = "add") by decide), if_neg (show ¬("input" = "or") by decide), if_neg (show ¬("input" = "ldf") by decide), if_neg (show ¬("input" = "draw") by decide), if_neg (show ¬("input" = "ldd") by decide), if_neg (show ¬("input" = "delay") by decide), if_neg (show ¬("input" = "skp") by decide), if_neg (show ¬("input" = "sknp") by decide), if_pos (show "input" = "input" from rfl)]
    dsimp only
    rw [h1]

/-- C8 counterexample: the claim's mnemonic `ldi` (and likewise `and`, `se`,
`ldr`, …) has no arm in `RawInstr::try_to_instruction`: lowering `ldi 4`
yields `UnknownInstruction`, not `SetMemRegister`. -/
theorem C8_counterexample_ldi :
    RawInstr.tryToInstruction ⟨"ldi", some "4", none, none, (0, 0)⟩
      = .error (.UnknownInstruction "ldi" (0, 0)) := by
  rfl

/-- Witness for C8 (amended) at concrete inputs: `sne r5 10` lowers to
`SkipNotEqual r5 10`, and `jmp loop` takes the label fallback. -/
theorem C8_mnemonic_table_lowering_witness :
    RawInstr.tryToInstruction ⟨"sne", some "r5", some "10", none, (0, 0)⟩
      = .ok ⟨.SkipNotEqual (u4.little 5) 10, none, none⟩ ∧
    RawInstr.tryToInstruction ⟨"jmp", some "loop", none, none, (0, 0)⟩
      = .ok ⟨.Jump (u12.fromU16 0), some "loop", none⟩ :=
  ⟨C8_mnemonic_table_lowering.2.2.2.2.2.2.2.2.1 (0, 0) (some "r5") (some "10")
      (u4.little 5) 10 rfl rfl,
    C8_mnemonic_table_lowering.2.2.2.2.2.2.2.1 (0, 0) "loop" none .IntegerParse rfl⟩

/-! ## Claim C7 — binary emission, label substitution, label binding -/

/-- Number of instruction lines in a line list. -/
def instrCount : List Line → Nat
  | [] => 0
  | .instruction _ :: rest => instrCount rest + 1
  | _ :: rest => instrCount rest

theorem instrCount_filter (ls : List Line) :
    instrCount (ls.filter fun l => !l.isComment) = instrCount ls := by
  induction ls with
  | nil => rfl
  | cons x rest ih =>
    cases x with
    | comment t => exact ih
    | label n => exact ih
    | instruction raw => exact congrArg (fun m => m + 1) ih

theorem resolveLabel_ok (labels : List (String × Nat)) (pi : ParsedInstruction)
    (h : ∀ l, pi.label = some l → (labels.lookup l).isSome = true) :
    ∃ ins, resolveLabel labels pi = .ok ins := by
  obtain ⟨i, lab, src⟩ := pi
  cases lab with
  | none => cases i <;> exact ⟨_, rfl⟩
  | some l =>
    have hs := h l rfl
    cases hk : labels.lookup l with
    | none => rw [hk] at hs; simp at hs
    | some off =>
      cases i
      case Call a =>
        refine ⟨.Call (u12.fromU16 ((START_ADDR + off * 2) % 65536)), ?_⟩
        dsimp only [resolveLabel]
        rw [hk]
      case Jump a =>
        refine ⟨.Jump (u12.fromU16 ((START_ADDR + off * 2) % 65536)), ?_⟩
        dsimp only [resolveLabel]
        rw [hk]
      case SetMemRegister a =>
        refine ⟨.SetMemRegister (u12.fromU16 ((START_ADDR + off * 2) % 65536)), ?_⟩
        dsimp only [resolveLabel]
        rw [hk]
      case JumpOffset a =>
        refine ⟨.JumpOffset (u12.fromU16 ((START_ADDR + off * 2) % 65536)), ?_⟩
        dsimp only [resolveLabel]
        rw [hk]
      all_goals exact ⟨_, rfl⟩

theorem binaryAux_shape (labels : List (String × Nat)) :
    ∀ instrs : List ParsedInstruction,
      (∀ pi ∈ instrs, ∀ l, pi.label = some l → (labels.lookup l).isSome = true) →
      ∃ buf, binaryAux labels instrs = .ok buf ∧ buf.length = 2 * instrs.length ∧
        ∀ j pi, instrs.get? j = some pi →
          ∃ ins, resolveLabel labels pi = .ok ins ∧
            buf.get? (2 * j) = some ((ins.opcode >>> 8) &&& 0xFF) ∧
            buf.get? (2 * j + 1) = some (ins.opcode &&& 0xFF) := by
  intro instrs
  induction instrs with
  | nil =>
    intro _
    refine ⟨[], rfl, rfl, ?_⟩
    intro j pi h
    simp at h
  | cons pi rest ih =>
    intro hpres
    obtain ⟨ins, hres⟩ := resolveLabel_ok labels pi (hpres pi (by simp))
    obtain ⟨buf, hbuf, hlen, hidx⟩ := ih (fun q hq => hpres q (by simp [hq]))
    refine ⟨((ins.opcode >>> 8) &&& 0xFF) :: (ins.opcode &&& 0xFF) :: buf, ?_, ?_, ?_⟩
    · simp only [binaryAux, hres, hbuf]
    · simp only [List.length_cons, hlen]
      omega
    · intro j q hj
      cases j with
      | zero =>
        simp only [List.get?_cons_zero, Option.some.injEq] at hj
        subst hj
        exact ⟨ins, hres, rfl, rfl⟩
      | succ j' =>
        simp only [List.get?_cons_succ] at hj
        obtain ⟨ins', h1, h2, h3⟩ := hidx j' q hj
        refine ⟨ins', h1, ?_, ?_⟩
        · have he : 2 * (j' + 1) = 2 * j' + 1 + 1 := by omega
          rw [he, List.get?_cons_succ, List.get?_cons_succ]
          exact h2
        · have he : 2 * (j' + 1) + 1 = 2 * j' + 1 + 1 + 1 := by omega
          rw [he, List.get?_cons_succ, List.get?_cons_succ]
          exact h3

theorem convertAux_lookup_untouched (L : String) :
    ∀ (ls : List Line) (cursor : Nat) (accI : List ParsedInstruction)
      (accL : List (String × Nat)) (instrs : List ParsedInstruction)
      (labels : List (String × Nat)),
      convertAux ls cursor accI accL = .ok (instrs, labels) →
      (∀ x ∈ ls, x ≠ Line.label L) →
      labels.lookup L = accL.lookup L := by
  intro ls
  induction ls with
  | nil =>
    intro cursor accI accL instrs labels h _
    simp only [convertAux, Except.ok.injEq, Prod.mk.injEq] at h
    rw [← h.2]
  | cons x rest ih =>
    intro cursor accI accL instrs labels h hx
    cases x with
    | comment t => simp [convertAux] at h
    | label name =>
      simp only [convertAux] at h
      have hlook := ih _ _ _ _ _ h (fun y hy => hx y (by simp [hy]))
      rw [hlook]
      have hne : L ≠ name := by
        intro he
        exact hx (Line.label name) (by simp) (by rw [he])
      have hb : (L == name) = false := by simpa using hne
      simp [List.lookup, hb]
    | instruction raw =>
      simp only [convertAux] at h
      cases hr : raw.tryToInstruction with
      | error e => rw [hr] at h; simp at h
      | ok pi =>
        rw [hr] at h
        exact ih _ _ _ _ _ h (fun y hy => hx y (by simp [hy]))

theorem convertAux_label_bind (L : String) :
    ∀ (ls₁ ls₂ : List Line) (cursor : Nat) (accI : List ParsedInstruction)
      (accL : List (String × Nat)) (instrs : List ParsedInstruction)
      (labels : List (String × Nat)),
      convertAux (ls₁ ++ Line.label L :: ls₂) cursor accI accL = .ok (instrs, labels) →
      (∀ x ∈ ls₂, x ≠ Line.label L) →
      labels.lookup L = some (cursor + instrCount ls₁) := by
  intro ls₁
  induction ls₁ with
  | nil =>
    intro ls₂ cursor accI accL instrs labels h hx
    simp only [List.nil_append, convertAux] at h
    have hlook := convertAux_lookup_untouched L _ _ _ _ _ _ h hx
    rw [hlook]
    simp [List.lookup, instrCount]
  | cons x rest ih =>
    intro ls₂ cursor accI accL instrs labels h hx
    cases x with
    | comment t => simp [convertAux] at h
    | label name =>
      simp only [List.cons_append, convertAux] at h
      exact ih _ _ _ _ _ _ h hx
    | instruction raw =>
      simp only [List.cons_append, convertAux] at h
      cases hr : raw.tryToInstruction with
      | error e => rw [hr] at h; simp at h
      | ok pi =>
        rw [hr] at h
        have hrec := ih _ _ _ _ _ _ h hx
        rw [hrec]
        congr 1
        simp only [instrCount]
        omega

/-- C7: (1) for an assembly whose label table covers every attached label,
`Assembly::binary` succeeds and emits exactly two big-endian opcode bytes
per instruction in order, each instruction resolved by the label pass;
(2) the resolution pass substitutes the address `0x200 + 2 * labels[L]`
into the address operand of a labelled `Call`/`Jump`/`SetMemRegister`/
`JumpOffset`; (3) the parser binds a label to the zero-based index of the
next instruction in emission order (the instruction count before it, with
the last occurrence of a duplicated label winning); (4) an attached label
missing from the table is a fatal `MissingReferencedLabel` error in
`Parser::parse`'s final check. -/
theorem C7_binary_emission :
    (∀ asm : Assembly,
      (∀ pi ∈ asm.instructions, ∀ l, pi.label = some l →
        (asm.labels.lookup l).isSome = true) →
      ∃ buf, asm.binary = .ok buf ∧ buf.length = 2 * asm.instructions.length ∧
        ∀ j pi, asm.instructions.get? j = some pi →
          ∃ ins, resolveLabel asm.labels pi = .ok ins ∧
            buf.get? (2 * j) = some ((ins.opcode >>> 8) &&& 0xFF) ∧
            buf.get? (2 * j + 1) = some (ins.opcode &&& 0xFF)) ∧
    (∀ (labels : List (String × Nat)) (a : u12) (sl : Option Source) (l : String)
      (off : Nat), labels.lookup l = some off → off ≤ 1791 →
      resolveLabel labels ⟨.Call a, some l, sl⟩ = .ok (.Call ⟨0x200 + 2 * off⟩) ∧
      resolveLabel labels ⟨.Jump a, some l, sl⟩ = .ok (.Jump ⟨0x200 + 2 * off⟩) ∧
      resolveLabel labels ⟨.SetMemRegister a, some l, sl⟩
        = .ok (.SetMemRegister ⟨0x200 + 2 * off⟩) ∧
      resolveLabel labels ⟨.JumpOffset a, some l, sl⟩
        = .ok (.JumpOffset ⟨0x200 + 2 * off⟩)) ∧
    (∀ (lines₁ lines₂ : List Line) (L : String) (instrs : List ParsedInstruction)
      (labels : List (String × Nat)),
      (∀ x ∈ lines₂, x ≠ Line.label L) →
      convertToInstructions (lines₁ ++ Line.label L :: lines₂) = .ok (instrs, labels) →
      labels.lookup L = some (instrCount lines₁)) ∧
    (∀ (instrs : List ParsedInstruction) (labels : List (String × Nat))
      (pi : ParsedInstruction) (l : String), pi ∈ instrs → pi.label = some l →
      labels.lookup l = none →
      ∃ l', checkLabels instrs labels = .error (.MissingReferencedLabel l')) := by
  refine ⟨?_, ?_, ?_, ?_⟩
  · intro asm h
    exact binaryAux_shape asm.labels asm.instructions h
  · intro labels a sl l off hl hoff
    have key : ((START_ADDR + off * 2) % 65536) &&& 0x0FFF = 0x200 + 2 * off := by
      rw [and_4095]
      simp only [START_ADDR]
      omega
    refine ⟨?_, ?_, ?_, ?_⟩ <;>
      (dsimp only [resolveLabel]
       rw [hl]
       dsimp only [u12.fromU16, u12.decompose]
       rw [key])
  · intro lines₁ lines₂ L instrs labels hx h
    unfold convertToInstructions at h
    rw [List.filter_append] at h
    have hfc : (Line.label L :: lines₂).filter (fun l => !l.isComment)
        = Line.label L :: lines₂.filter (fun l => !l.isComment) := rfl
    rw [hfc] at h
    have hres := convertAux_label_bind L _ _ _ _ _ _ _ h
      (fun y hy => hx y (List.mem_of_mem_filter hy))
    rw [hres, instrCount_filter, Nat.zero_add]
  · intro instrs
    induction instrs with
    | nil => intro labels pi l h; simp at h
    | cons q rest ih =>
      intro labels pi l hmem hlab hnone
      rcases List.mem_cons.mp hmem with he | hm
      · subst he
        refine ⟨l, ?_⟩
        unfold checkLabels
        rw [hlab]
        dsimp only
        rw [hnone]
        rfl
      · unfold checkLabels
        cases hq : q.label with
        | none => exact ih labels pi l hm hlab hnone
        | some l₀ =>
          dsimp only
          by_cases hs : (labels.lookup l₀).isSome = true
          · rw [if_pos hs]
            exact ih labels pi l hm hlab hnone
          · rw [if_neg hs]
            exact ⟨l₀, rfl⟩

/-- Witness for C7 at a concrete two-instruction assembly: `jmp exit` with
label table `exit ↦ 1` resolves through the table and emits two bytes per
instruction. -/
theorem C7_binary_emission_witness :
    ∃ buf, Assembly.binary ⟨[⟨.Jump (u12.fromU16 0), some "exit", none⟩,
        ⟨.SetRegisterByte (u4.little 1) 5, none, none⟩], [("exit", 1)]⟩ = .ok buf ∧
      buf.length = 2 * 2 ∧
      ∀ j pi, ([⟨.Jump (u12.fromU16 0), some "exit", none⟩,
        ⟨.SetRegisterByte (u4.little 1) 5, none, none⟩]
          : List ParsedInstruction).get? j = some pi →
        ∃ ins, resolveLabel [("exit", 1)] pi = .ok ins ∧
          buf.get? (2 * j) = some ((ins.opcode >>> 8) &&& 0xFF) ∧
          buf.get? (2 * j + 1) = some (ins.opcode &&& 0xFF) :=
  C7_binary_emission.1 ⟨[⟨.Jump (u12.fromU16 0), some "exit", none⟩,
      ⟨.SetRegisterByte (u4.little 1) 5, none, none⟩], [("exit", 1)]⟩
    (by intro pi hpi l hl
        rcases List.mem_cons.mp hpi with he | hm
        · subst he
          simp only [Option.some.injEq] at hl
          subst hl
          rfl
        · simp only [List.mem_singleton] at hm
          subst hm
          simp at hl)

/-! ## Claim C3 — the Draw collision flag -/

theorem upd_same (f : Nat → Nat) (i v : Nat) : upd f i v i = v := if_pos rfl

theorem upd_ne (f : Nat → Nat) (i v j : Nat) (h : j ≠ i) : upd f i v j = f j :=
  if_neg h

/-- Bit identity behind the collision accumulator: the source's
`(b ^ s) ^ (b | s)` is exactly `b & s`, the mask of bits flipped from 1 to 0
by the XOR write. -/
theorem xor_lor_eq_and (a s : Nat) : (a ^^^ s) ^^^ (a ||| s) = a &&& s := by
  apply Nat.eq_of_testBit_eq
  intro i
  simp only [Nat.testBit_xor, Nat.testBit_or, Nat.testBit_and]
  cases a.testBit i <;> cases s.testBit i <;> rfl

theorem lor_eq_zero_iff (a b : Nat) : a ||| b = 0 ↔ a = 0 ∧ b = 0 := by
  constructor
  · intro h
    have hbit : ∀ i, a.testBit i = false ∧ b.testBit i = false := by
      intro i
      have := congrArg (fun t => Nat.testBit t i) h
      simp only [Nat.testBit_or, Nat.zero_testBit] at this
      simpa using this
    constructor
    · exact Nat.eq_of_testBit_eq (fun i => by
        rw [Nat.zero_testBit]; exact (hbit i).1)
    · exact Nat.eq_of_testBit_eq (fun i => by
        rw [Nat.zero_testBit]; exact (hbit i).2)
  · rintro ⟨rfl, rfl⟩
    rfl

theorem lor_assoc (a b c : Nat) : a ||| b ||| c = a ||| (b ||| c) := by
  apply Nat.eq_of_testBit_eq
  intro i
  simp only [Nat.testBit_or]
  cases a.testBit i <;> cases b.testBit i <;> cases c.testBit i <;> rfl

theorem ne_zero_iff_testBit (n : Nat) : n ≠ 0 ↔ ∃ b, n.testBit b = true := by
  constructor
  · intro h
    by_contra hc
    push_neg at hc
    apply h
    apply Nat.eq_of_testBit_eq
    intro i
    rw [Nat.zero_testBit]
    cases hb : n.testBit i with
    | false => rfl
    | true => exact absurd hb (hc i)
  · rintro ⟨b, hb⟩ h0
    subst h0
    rw [Nat.zero_testBit] at hb
    exact Bool.noConfusion hb

/-- A bit flips from 1 to 0 under `^^^ s` exactly where `&&& s` is set. -/
theorem and_testBit_flip (a s b : Nat) :
    (a.testBit b = true ∧ (a ^^^ s).testBit b = false) ↔
      (a &&& s).testBit b = true := by
  simp only [Nat.testBit_xor, Nat.testBit_and]
  cases a.testBit b <;> cases s.testBit b <;> simp

/-- The sprite byte that the Draw loop XORs into framebuffer cell `c` during
iterations `i, i+1, …, i+k-1` (`0` for untouched cells): iteration `j` writes
`sprite >> (x%8)` at `start + j*8` and `(sprite << (8 - x%8)) as u8` at
`start + 1 + j*8`. -/
def overlay (mem : Nat → Nat) (I start x : Nat) : Nat → Nat → Nat → Nat
  | 0, _, _ => 0
  | k + 1, i, c =>
    if c = start + i * 8 then mem (I + i) >>> (x % 8)
    else if c = start + 1 + i * 8 then (mem (I + i) <<< (8 - x % 8)) % 256
    else overlay mem I start x k (i + 1) c

/-- The value of the source's `vf` accumulator over iterations
`i, …, i+k-1`: the OR of `old_byte & sprite_part` over both cells of every
row, against the buffer `gb` as it stood before those iterations. -/
def collide (mem : Nat → Nat) (I start x : Nat) (gb : Nat → Nat) :
    Nat → Nat → Nat
  | 0, _ => 0
  | k + 1, i =>
    (gb (start + i * 8) &&& mem (I + i) >>> (x % 8)) |||
      (gb (start + 1 + i * 8) &&& (mem (I + i) <<< (8 - x % 8)) % 256) |||
      collide mem I start x gb k (i + 1)

/-- Cells below the current row of the loop are never touched later. -/
theorem overlay_lower (mem : Nat → Nat) (I start x : Nat) :
    ∀ (k i c : Nat), c < start + i * 8 → overlay mem I start x k i c = 0 := by
  intro k
  induction k with
  | zero => intro i c h; rfl
  | succ k ih =>
    intro i c h
    have h1 : c ≠ start + i * 8 := by omega
    have h2 : c ≠ start + 1 + i * 8 := by omega
    simp only [overlay]
    rw [if_neg h1, if_neg h2]
    exact ih (i + 1) c (by omega)

/-- `collide` reads the buffer only at the cells of rows `≥ i`. -/
theorem collide_congr (mem : Nat → Nat) (I start x : Nat) :
    ∀ (k i : Nat) (gb gb2 : Nat → Nat),
      (∀ j, i ≤ j → gb2 (start + j * 8) = gb (start + j * 8) ∧
        gb2 (start + 1 + j * 8) = gb (start + 1 + j * 8)) →
      collide mem I start x gb2 k i = collide mem I start x gb k i := by
  intro k
  induction k with
  | zero => intro i gb gb2 h; rfl
  | succ k ih =>
    intro i gb gb2 h
    simp only [collide]
    rw [(h i (Nat.le_refl i)).1, (h i (Nat.le_refl i)).2,
      ih (i + 1) gb gb2 (fun j hj => h j (by omega))]

/-- The two cells written by row `i` are disjoint from the cells of every
later row. -/
theorem drawLoop_step_gb (gb : Nat → Nat) (start i v1 v2 : Nat) :
    ∀ j, i + 1 ≤ j →
      upd (upd gb (start + i * 8) v1) (start + 1 + i * 8) v2 (start + j * 8)
          = gb (start + j * 8) ∧
      upd (upd gb (start + i * 8) v1) (start + 1 + i * 8) v2 (start + 1 + j * 8)
          = gb (start + 1 + j * 8) := by
  intro j hj
  constructor <;>
    rw [upd_ne _ _ _ _ (by omega), upd_ne _ _ _ _ (by omega)]

/-- The Draw loop, characterised: a successful run XORs the `overlay` into
the buffer pointwise and ORs the `collide` mask of the initial buffer into
the accumulator. -/
theorem drawLoop_spec (mem : Nat → Nat) (I start x : Nat) :
    ∀ (k i : Nat) (gb : Nat → Nat) (vf : Nat) (gb2 : Nat → Nat) (vf2 : Nat),
      Emulator.drawLoop mem I start x k i gb vf = some (gb2, vf2) →
      vf2 = vf ||| collide mem I start x gb k i ∧
      ∀ c, gb2 c = gb c ^^^ overlay mem I start x k i c := by
  intro k
  induction k with
  | zero =>
    intro i gb vf gb2 vf2 h
    simp only [Emulator.drawLoop, Option.some.injEq, Prod.mk.injEq] at h
    obtain ⟨h1, h2⟩ := h
    subst h1
    subst h2
    constructor
    · simp [collide]
    · intro c
      simp [overlay]
  | succ k ih =>
    intro i gb vf gb2 vf2 h
    simp only [Emulator.drawLoop] at h
    split_ifs at h with hm h1 h2
    · have hb2 : upd gb (start + i * 8)
          (gb (start + i * 8) ^^^ mem (I + i) >>> (x % 8)) (start + 1 + i * 8)
          = gb (start + 1 + i * 8) := upd_ne _ _ _ _ (by omega)
      rw [hb2] at h
      obtain ⟨hvf, hgb⟩ := ih (i + 1) _ _ gb2 vf2 h
      have hcc : collide mem I start x
          (upd (upd gb (start + i * 8)
              (gb (start + i * 8) ^^^ mem (I + i) >>> (x % 8)))
            (start + 1 + i * 8)
            (gb (start + 1 + i * 8) ^^^ (mem (I + i) <<< (8 - x % 8)) % 256))
          k (i + 1) = collide mem I start x gb k (i + 1) :=
        collide_congr mem I start x k (i + 1) gb _
          (fun j hj => drawLoop_step_gb gb start i _ _ j hj)
      rw [hcc] at hvf
      rw [xor_lor_eq_and, xor_lor_eq_and] at hvf
      constructor
      · rw [hvf]
        simp only [collide]
        simp only [lor_assoc]
      · intro c
        have hc := hgb c
        simp only [overlay]
        by_cases hc1 : c = start + i * 8
        · subst hc1
          rw [if_pos rfl]
          rw [upd_ne _ _ _ _ (by omega), upd_same] at hc
          rw [overlay_lower mem I start x k (i + 1) _ (by omega)] at hc
          rw [hc, Nat.xor_zero]
        · by_cases hc2 : c = start + 1 + i * 8
          · subst hc2
            rw [if_neg (by omega), if_pos rfl]
            rw [upd_same] at hc
            rw [overlay_lower mem I start x k (i + 1) _ (by omega)] at hc
            rw [hc, Nat.xor_zero]
          · rw [if_neg hc1, if_neg hc2]
            rw [upd_ne _ _ _ _ hc2, upd_ne _ _ _ _ hc1] at hc
            exact hc

/-- The accumulator is zero exactly when no initially-set bit sits under a
sprite bit. -/
theorem collide_eq_zero_iff (mem : Nat → Nat) (I start x : Nat)
    (gb : Nat → Nat) :
    ∀ (k i : Nat), collide mem I start x gb k i = 0 ↔
      ∀ c, gb c &&& overlay mem I start x k i c = 0 := by
  intro k
  induction k with
  | zero =>
    intro i
    constructor
    · intro _ c
      simp [overlay]
    · intro _
      rfl
  | succ k ih =>
    intro i
    simp only [collide]
    rw [lor_eq_zero_iff, lor_eq_zero_iff, ih (i + 1)]
    constructor
    · rintro ⟨⟨ha1, ha2⟩, hr⟩ c
      simp only [overlay]
      by_cases hc1 : c = start + i * 8
      · subst hc1
        rw [if_pos rfl]
        exact ha1
      · by_cases hc2 : c = start + 1 + i * 8
        · subst hc2
          rw [if_neg (by omega), if_pos rfl]
          exact ha2
        · rw [if_neg hc1, if_neg hc2]
          exact hr c
    · intro hall
      refine ⟨⟨?_, ?_⟩, ?_⟩
      · have hx := hall (start + i * 8)
        simp only [overlay] at hx
        simpa using hx
      · have hx := hall (start + 1 + i * 8)
        simp only [overlay] at hx
        simpa using hx
      · intro c
        by_cases hc1 : c = start + i * 8
        · subst hc1
          rw [overlay_lower mem I start x k (i + 1) _ (by omega)]
          exact Nat.and_zero _
        · by_cases hc2 : c = start + 1 + i * 8
          · subst hc2
            rw [overlay_lower mem I start x k (i + 1) _ (by omega)]
            exact Nat.and_zero _
          · have hx := hall c
            simp only [overlay] at hx
            rw [if_neg hc1, if_neg hc2] at hx
            exact hx

/-- State for the C3 counterexample: an all-zero framebuffer (so no bit can
flip from 1 to 0), `V[0xF] = 1` before the draw, and sprite data `0xFF`. -/
def c3State : Emulator :=
  { zeroEmulator with registries := fun _ => 1, memory := fun _ => 255 }

/-- C3 counterexample: drawing one sprite row into an all-zero framebuffer
flips no bit from 1 to 0, yet `V[0xF]` remains `1` afterwards (the code only
ever sets the flag to 1, it never clears it), where the claim requires
`V[0xF] = 0`. -/
theorem C3_counterexample_vf_not_cleared :
    c3State.graphicsBuffer = (fun _ => 0) ∧
    c3State.registries 0x0F = 1 ∧
    (Emulator.execute c3State
        (.Draw (u4.little 0) (u4.little 1) (u4.little 1))).map
      (Except.map fun r => r.2.registries 0x0F) = some (.ok 1) :=
  ⟨rfl, rfl, rfl⟩

theorem zero_lor (z : Nat) : 0 ||| z = z := by
  apply Nat.eq_of_testBit_eq
  intro i
  simp only [Nat.testBit_or, Nat.zero_testBit]
  cases z.testBit i <;> rfl

set_option maxHeartbeats 1000000 in
/-- C3 (amended): a successful execution of `Draw(x, y, n)` returns
`Ok(true)`; afterwards `V[0xF] = 1` if some framebuffer bit was flipped from
1 to 0 by the XOR, but if no bit was flipped `V[0xF]` keeps its previous
value — the code sets the flag on collision and never clears it, so the
claimed `V[0xF] = 0` branch is wrong.  No register other than `V[0xF]`
changes. -/
theorem C3_draw_collision_flag (e : Emulator) (regx regy n : u4) (ok : Bool)
    (e2 : Emulator)
    (hex : e.execute (.Draw regx regy n) = some (.ok (ok, e2))) :
    ok = true ∧
    ((∃ c b, (e.graphicsBuffer c).testBit b = true ∧
        (e2.graphicsBuffer c).testBit b = false) →
      e2.registries 0x0F = 1) ∧
    ((∀ c b, (e.graphicsBuffer c).testBit b = true →
        (e2.graphicsBuffer c).testBit b = true) →
      e2.registries 0x0F = e.registries 0x0F) ∧
    (∀ r, r ≠ 0x0F → e2.registries r = e.registries r) := by
  simp only [Emulator.execute] at hex
  rcases hdl : Emulator.drawLoop e.memory e.addressRegister
      (e.registries regx.value / 8 + e.registries regy.value * 8)
      (e.registries regx.value) n.value 0 e.graphicsBuffer 0 with _ | ⟨gb2, vf⟩ <;>
    rw [hdl] at hex
  · exact Option.noConfusion hex
  · obtain ⟨hvf, hgb⟩ := drawLoop_spec e.memory e.addressRegister
      (e.registries regx.value / 8 + e.registries regy.value * 8)
      (e.registries regx.value) n.value 0 e.graphicsBuffer 0 gb2 vf hdl
    rw [zero_lor] at hvf
    simp only [] at hex
    split_ifs at hex with hv
    · simp only [Option.some.injEq, Except.ok.injEq, Prod.mk.injEq] at hex
      obtain ⟨hok, he⟩ := hex
      subst he
      refine ⟨hok.symm, fun _ => ?_, fun hnf => ?_, fun r hr => ?_⟩
      · show upd e.registries 0x0F 1 0x0F = 1
        exact upd_same _ _ _
      rotate_right
      · show upd e.registries 0x0F 1 r = e.registries r
        exact upd_ne _ _ _ _ hr
      exfalso
      have hcz : collide e.memory e.addressRegister
          (e.registries regx.value / 8 + e.registries regy.value * 8)
          (e.registries regx.value) e.graphicsBuffer n.value 0 = 0 := by
        rw [collide_eq_zero_iff]
        intro c
        by_contra hnz
        obtain ⟨b, hb⟩ := (ne_zero_iff_testBit _).mp hnz
        have hflip := (and_testBit_flip _ _ _).mpr hb
        have hset : (gb2 c).testBit b = true := hnf c b hflip.1
        rw [hgb c] at hset
        exact Bool.noConfusion (hflip.2.symm.trans hset)
      rw [hcz] at hvf
      omega
    · simp only [Option.some.injEq, Except.ok.injEq, Prod.mk.injEq] at hex
      obtain ⟨hok, he⟩ := hex
      subst he
      refine ⟨hok.symm, fun hflip => ?_, fun _ => rfl, fun r hr => rfl⟩
      exfalso
      obtain ⟨c, b, hold, hnew⟩ := hflip
      have hnew2 : (gb2 c).testBit b = false := hnew
      rw [hgb c] at hnew2
      have hb := (and_testBit_flip _ _ _).mp ⟨hold, hnew2⟩
      have hv0 : vf = 0 := by omega
      rw [hv0] at hvf
      have hcz := (collide_eq_zero_iff e.memory e.addressRegister
          (e.registries regx.value / 8 + e.registries regy.value * 8)
          (e.registries regx.value) e.graphicsBuffer n.value 0).mp hvf.symm c
      rw [hcz] at hb
      rw [Nat.zero_testBit] at hb
      exact Bool.noConfusion hb

/-- State for the C3 witness: an all-ones framebuffer and sprite `0xFF`, so
the first drawn row collides. -/
def c3w : Emulator :=
  { zeroEmulator with graphicsBuffer := fun _ => 255, memory := fun _ => 255 }

/-- Witness for C3 at a concrete collision: drawing sprite `0xFF` over an
all-ones framebuffer row. -/
theorem C3_draw_collision_flag_witness :
    true = true ∧
    ((∃ c b, (c3w.graphicsBuffer c).testBit b = true ∧
        (({ c3w with
            graphicsBuffer := upd (upd c3w.graphicsBuffer 0 0) 1 255
            registries := upd c3w.registries 0x0F 1 } :
          Emulator).graphicsBuffer c).testBit b = false) →
      ({ c3w with
          graphicsBuffer := upd (upd c3w.graphicsBuffer 0 0) 1 255
          registries := upd c3w.registries 0x0F 1 } :
        Emulator).registries 0x0F = 1) ∧
    ((∀ c b, (c3w.graphicsBuffer c).testBit b = true →
        (({ c3w with
            graphicsBuffer := upd (upd c3w.graphicsBuffer 0 0) 1 255
            registries := upd c3w.registries 0x0F 1 } :
          Emulator).graphicsBuffer c).testBit b = true) →
      ({ c3w with
          graphicsBuffer := upd (upd c3w.graphicsBuffer 0 0) 1 255
          registries := upd c3w.registries 0x0F 1 } :
        Emulator).registries 0x0F = c3w.registries 0x0F) ∧
    (∀ r, r ≠ 0x0F →
      ({ c3w with
          graphicsBuffer := upd (upd c3w.graphicsBuffer 0 0) 1 255
          registries := upd c3w.registries 0x0F 1 } :
        Emulator).registries r = c3w.registries r) :=
  C3_draw_collision_flag c3w (u4.little 0) (u4.little 0) (u4.little 1) true
    { c3w with
      graphicsBuffer := upd (upd c3w.graphicsBuffer 0 0) 1 255
      registries := upd c3w.registries 0x0F 1 } rfl

end Chiprs
